import Mathlib

/-!
Verification of the satellite-scout tracker core (Go package `tracker`)
against its natural-language specification.

Go strings are byte sequences; we model them as `List ℕ` with every
element below 256.  Machine floats (`float64`) are modelled as rationals
`ℚ` wherever the control flow of the translated code does not depend on
rounding, NaN or infinity; where NaN/infinity matter (the SGP4 kernel
output check) a dedicated `GoFloat` type is used, and where genuine real
functions (sqrt, asin, atan2) appear the reals are used.  Timestamps are
modelled as `ℤ` (Unix nanoseconds or milliseconds, as in the source).
-/

namespace SatScout

/-- Go string, as its byte sequence. -/
abbrev GoStr := List ℕ

/-- Bytes of an ASCII Lean string (for concrete test vectors). -/
def strBytes (s : String) : GoStr := s.data.map (fun c => c.toNat)

/-- Go `byte` subtraction `a - b` (wraps modulo 256). -/
def goByteSub (a b : ℕ) : ℕ := (a + 256 - b) % 256

/-- ASCII decimal digit test, `c >= '0' && c <= '9'`. -/
def isDigitB (c : ℕ) : Bool := 48 ≤ c && c ≤ 57

/-- Whitespace bytes trimmed by `strings.TrimSpace` (ASCII subset). -/
def isSpaceB (c : ℕ) : Bool := c = 32 || c = 9 || c = 10 || c = 11 || c = 12 || c = 13

/-- `strings.TrimSpace` on ASCII input: drop leading and trailing whitespace. -/
def goTrim (s : GoStr) : GoStr :=
  ((s.dropWhile isSpaceB).reverse.dropWhile isSpaceB).reverse

/-- Go slice `s[a:b]` (well-formed slices only, as used by the parser). -/
def goSlice (s : GoStr) (a b : ℕ) : GoStr := (s.drop a).take (b - a)

/-- `strings.Split(data, "\n")`: split a byte string at every newline byte. -/
def goSplitNL : GoStr → List GoStr
  | [] => [[]]
  | c :: t =>
    if c = 10 then [] :: goSplitNL t
    else
      match goSplitNL t with
      | [] => [[c]]
      | h :: r => (c :: h) :: r

/-- Numeric value of a list of ASCII digit bytes (most significant first). -/
def digitsVal (l : GoStr) : ℕ := l.foldl (fun acc c => acc * 10 + (c - 48)) 0

/-- `strconv.Atoi`: optional sign, then a non-empty run of digits covering
the whole string. Returns the parsed integer or `none` on syntax error. -/
def goAtoi (s : GoStr) : Option ℤ :=
  match s with
  | [] => none
  | c :: t =>
    if c = 43 then
      if t ≠ [] ∧ t.all isDigitB then some (digitsVal t) else none
    else if c = 45 then
      if t ≠ [] ∧ t.all isDigitB then some (-(digitsVal t : ℤ)) else none
    else if s.all isDigitB then some (digitsVal s) else none

/-! ### TLE checksum (`calculateChecksum`, `validateChecksum`) -/

/-- Length of one TLE line, checksum included (`TLELineLength`). -/
def TLELineLength : ℕ := 69

/-- `calculateChecksum`: Modulo-10 sum where a digit contributes its value,
a minus sign contributes 1, and every other byte contributes 0. -/
def calculateChecksum (line : GoStr) : ℕ :=
  (line.foldl
    (fun sum c =>
      if isDigitB c then sum + (c - 48)
      else if c = 45 then sum + 1
      else sum) 0) % 10

/-- `validateChecksum`: the sum over the first 68 bytes must equal
`int(line[68] - '0')` (Go byte arithmetic, wrapping modulo 256). -/
def validateChecksum (line : GoStr) : Bool :=
  if line.length < TLELineLength then false
  else decide (calculateChecksum (line.take (TLELineLength - 1))
        = goByteSub (line.getD (TLELineLength - 1) 0) 48)

/-- Specification-side checksum sum (from the spec's words): digits
contribute their numeric value, the minus sign contributes 1, all other
characters contribute 0. -/
def specChecksumSum (line : GoStr) : ℕ :=
  (line.map (fun c => if 48 ≤ c ∧ c ≤ 57 then c - 48 else if c = 45 then 1 else 0)).sum

/-- Specification-side acceptance predicate: the 69th character is the
digit equal to the Modulo-10 sum of the first 68 characters. -/
def checksumSpec (line : GoStr) : Prop :=
  ∃ d, d ≤ 9 ∧ line.getD 68 0 = 48 + d ∧ specChecksumSum (line.take 68) % 10 = d

/-! ### Alpha-5 catalog numbers (`alpha5Map`, `parseNoradID`) -/

/-- Errors raised by the TLE parser (the named sentinel errors of the
source; `fmt.Errorf` wrapping that preserves the sentinel via `%w` is
modelled by the sentinel itself). -/
inductive TLEErr where
  | invalidFormat
  | invalidChecksum
  | invalidLineNumber
  | lineTooShort
  | noradMismatch
  | invalidAlpha5
  | invalidNorad
  | fieldNumeric
  deriving DecidableEq, Repr

/-- `alpha5Map`: letter prefixes of the Alpha-5 catalog-number scheme.
I (73) and O (79) are absent. -/
def alpha5Map (c : ℕ) : Option ℕ :=
  if c = 65 then some 10 else if c = 66 then some 11
  else if c = 67 then some 12 else if c = 68 then some 13
  else if c = 69 then some 14 else if c = 70 then some 15
  else if c = 71 then some 16 else if c = 72 then some 17
  else if c = 74 then some 18 else if c = 75 then some 19
  else if c = 76 then some 20 else if c = 77 then some 21
  else if c = 78 then some 22
  else if c = 80 then some 23 else if c = 81 then some 24
  else if c = 82 then some 25 else if c = 83 then some 26
  else if c = 84 then some 27 else if c = 85 then some 28
  else if c = 86 then some 29 else if c = 87 then some 30
  else if c = 88 then some 31 else if c = 89 then some 32
  else if c = 90 then some 33 else none

/-- `parseNoradID`: Alpha-5 aware catalog-number parser. A leading letter
A-Z is looked up in `alpha5Map` (miss: `ErrInvalidAlpha5`), the following
four characters are parsed with `Atoi`; otherwise the whole field is
parsed with `Atoi`. -/
def parseNoradID (s : GoStr) : Except TLEErr ℤ :=
  match s with
  | [] => .error .invalidAlpha5
  | c :: _ =>
    if 65 ≤ c ∧ c ≤ 90 then
      match alpha5Map c with
      | none => .error .invalidAlpha5
      | some pre =>
        if s.length < 5 then .error .invalidAlpha5
        else
          match goAtoi (goSlice s 1 5) with
          | none => .error .invalidAlpha5
          | some rest => .ok (pre * 10000 + rest)
    else
      match goAtoi s with
      | none => .error .invalidNorad
      | some id => .ok id

/-! ### Concrete TLE test vectors (the repository's ISS lines, checksums
appended).  Line 1 body is `1 25544U 98067A   24001.50000000  .00016717`
`  00000-0  10270-3 0  999` and line 2 body is `2 25544  51.6400 247.4627`
` 0006703 130.5360 325.0288 15.4981557142340`. -/

/-- ISS line 1 with its Modulo-10 checksum (7) appended, as raw bytes. -/
def issLine1B : GoStr :=
  [49, 32, 50, 53, 53, 52, 52, 85, 32, 57, 56, 48, 54, 55, 65, 32, 32, 32,
   50, 52, 48, 48, 49, 46, 53, 48, 48, 48, 48, 48, 48, 48, 32, 32, 46, 48,
   48, 48, 49, 54, 55, 49, 55, 32, 32, 48, 48, 48, 48, 48, 45, 48, 32, 32,
   49, 48, 50, 55, 48, 45, 51, 32, 48, 32, 32, 57, 57, 57, 55]

/-- ISS line 2 with its Modulo-10 checksum (1) appended, as raw bytes. -/
def issLine2B : GoStr :=
  [50, 32, 50, 53, 53, 52, 52, 32, 32, 53, 49, 46, 54, 52, 48, 48, 32, 50,
   52, 55, 46, 52, 54, 50, 55, 32, 48, 48, 48, 54, 55, 48, 51, 32, 49, 51,
   48, 46, 53, 51, 54, 48, 32, 51, 50, 53, 46, 48, 50, 56, 56, 32, 49, 53,
   46, 52, 57, 56, 49, 53, 53, 55, 49, 52, 50, 51, 52, 48, 49]

/-- The ISS satellite name line, as raw bytes. -/
def issNameB : GoStr := [73, 83, 83, 32, 40, 90, 65, 82, 89, 65, 41]

instance {ε α : Type} [DecidableEq ε] [DecidableEq α] : DecidableEq (Except ε α) :=
  fun x y =>
    match x, y with
    | .ok a, .ok b =>
      if h : a = b then .isTrue (by rw [h])
      else .isFalse (by intro hc; injection hc; contradiction)
    | .error a, .error b =>
      if h : a = b then .isTrue (by rw [h])
      else .isFalse (by intro hc; injection hc; contradiction)
    | .ok _, .error _ => .isFalse (fun hc => Except.noConfusion hc)
    | .error _, .ok _ => .isFalse (fun hc => Except.noConfusion hc)

/-! ### Helper lemmas -/

theorem isDigitB_iff (c : ℕ) : isDigitB c = true ↔ (48 ≤ c ∧ c ≤ 57) := by
  simp [isDigitB]

theorem checksum_foldl_eq (l : GoStr) : ∀ acc : ℕ,
    l.foldl (fun sum c =>
      if isDigitB c then sum + (c - 48)
      else if c = 45 then sum + 1 else sum) acc
      = acc + specChecksumSum l := by
  induction l with
  | nil => intro acc; simp [specChecksumSum]
  | cons c t ih =>
    intro acc
    have hstep : (if isDigitB c then acc + (c - 48) else if c = 45 then acc + 1 else acc)
        = acc + (if 48 ≤ c ∧ c ≤ 57 then c - 48 else if c = 45 then 1 else 0) := by
      by_cases h1 : 48 ≤ c ∧ c ≤ 57
      · have hb : isDigitB c = true := (isDigitB_iff c).mpr h1
        simp [hb, h1]
      · have hb : isDigitB c = false := by
          cases hx : isDigitB c
          · rfl
          · exact absurd ((isDigitB_iff c).mp hx) h1
        rw [hb]
        by_cases h3 : c = 45
        · simp only [Bool.false_eq_true, if_false, if_pos h3, if_neg h1]
        · simp only [Bool.false_eq_true, if_false, if_neg h3, if_neg h1, Nat.add_zero]
    show List.foldl _
        (if isDigitB c then acc + (c - 48) else if c = 45 then acc + 1 else acc) t = _
    rw [ih, hstep]
    simp only [specChecksumSum, List.map_cons, List.sum_cons]
    rw [Nat.add_assoc]

theorem calculateChecksum_eq_specSum (l : GoStr) :
    calculateChecksum l = specChecksumSum l % 10 := by
  unfold calculateChecksum
  rw [checksum_foldl_eq l 0, Nat.zero_add]

theorem goAtoi_digits (s : GoStr) (hne : s ≠ []) (hd : s.all isDigitB = true) :
    goAtoi s = some ((digitsVal s : ℤ)) := by
  match s, hne with
  | c :: t, _ =>
    have hc : isDigitB c = true := by
      have := List.all_eq_true.mp hd c (by simp)
      exact this
    have hc' : 48 ≤ c ∧ c ≤ 57 := by simpa [isDigitB] using hc
    have h43 : c ≠ 43 := by omega
    have h45 : c ≠ 45 := by omega
    simp [goAtoi, h43, h45, hd]

/-! ### Claim C4 — checksum acceptance condition -/

/-- C4: a 69-character TLE line passes `validateChecksum` exactly when the
Modulo-10 sum of its first 68 characters (digits count their value, a minus
sign counts 1, everything else counts 0) equals the 69th character read as
a decimal digit. -/
theorem validateChecksum_iff_checksumSpec (line : GoStr)
    (hlen : line.length = 69) (hbyte : ∀ b ∈ line, b < 256) :
    validateChecksum line = true ↔ checksumSpec line := by
  have h69 : ¬ line.length < TLELineLength := by
    simp [TLELineLength, hlen]
  have hb : line.getD 68 0 < 256 := by
    have hmem : line.getD 68 0 ∈ line := by
      have h68 : 68 < line.length := by omega
      rw [List.getD_eq_getElem line 0 h68]
      exact List.getElem_mem h68
    exact hbyte _ hmem
  have hsum : calculateChecksum (line.take 68) = specChecksumSum (line.take 68) % 10 :=
    calculateChecksum_eq_specSum _
  have hlt : specChecksumSum (line.take 68) % 10 ≤ 9 :=
    Nat.le_of_lt_succ (Nat.mod_lt _ (by norm_num))
  have hm1 : TLELineLength - 1 = 68 := rfl
  constructor
  · intro h
    unfold validateChecksum at h
    rw [if_neg h69, hm1] at h
    have heq := of_decide_eq_true h
    rw [hsum] at heq
    unfold goByteSub at heq
    refine ⟨specChecksumSum (line.take 68) % 10, hlt, ?_, rfl⟩
    omega
  · rintro ⟨d, hd9, hchar, hmod⟩
    unfold validateChecksum
    rw [if_neg h69, hm1]
    apply decide_eq_true
    rw [hsum, hmod, hchar]
    unfold goByteSub
    omega

/-- C4 witness: the ISS line 1 test vector satisfies both sides. -/
theorem validateChecksum_iff_checksumSpec_witness : checksumSpec issLine1B :=
  (validateChecksum_iff_checksumSpec issLine1B (by decide) (by decide)).mp (by decide)

/-! ### Claim C5 — Alpha-5 catalog numbers -/

theorem alpha5Map_isLetter {c pre : ℕ} (h : alpha5Map c = some pre) :
    65 ≤ c ∧ c ≤ 90 := by
  by_contra hcon
  have hnone : alpha5Map c = none := by
    unfold alpha5Map
    rw [if_neg (show ¬ c = 65 by omega),
      if_neg (show ¬ c = 66 by omega),
      if_neg (show ¬ c = 67 by omega),
      if_neg (show ¬ c = 68 by omega),
      if_neg (show ¬ c = 69 by omega),
      if_neg (show ¬ c = 70 by omega),
      if_neg (show ¬ c = 71 by omega),
      if_neg (show ¬ c = 72 by omega),
      if_neg (show ¬ c = 74 by omega),
      if_neg (show ¬ c = 75 by omega),
      if_neg (show ¬ c = 76 by omega),
      if_neg (show ¬ c = 77 by omega),
      if_neg (show ¬ c = 78 by omega),
      if_neg (show ¬ c = 80 by omega),
      if_neg (show ¬ c = 81 by omega),
      if_neg (show ¬ c = 82 by omega),
      if_neg (show ¬ c = 83 by omega),
      if_neg (show ¬ c = 84 by omega),
      if_neg (show ¬ c = 85 by omega),
      if_neg (show ¬ c = 86 by omega),
      if_neg (show ¬ c = 87 by omega),
      if_neg (show ¬ c = 88 by omega),
      if_neg (show ¬ c = 89 by omega),
      if_neg (show ¬ c = 90 by omega)]
  rw [hnone] at h
  exact Option.noConfusion h

/-- C5: `parseNoradID` maps a letter-led 5-character field to
`alpha5Map[letter] * 10000` plus the trailing 4 digits (A0000 ↦ 100000,
Z9999 ↦ 339999), rejects every field starting with I (73) or O (79) with
`ErrInvalidAlpha5`, and parses an all-digit 5-character field in base 10. -/
theorem parseNoradID_spec :
    (∀ c pre ds, alpha5Map c = some pre → ds.length = 4 → ds.all isDigitB = true →
        parseNoradID (c :: ds) = .ok ((pre : ℤ) * 10000 + (digitsVal ds : ℤ)))
    ∧ parseNoradID [65, 48, 48, 48, 48] = .ok 100000
    ∧ parseNoradID [90, 57, 57, 57, 57] = .ok 339999
    ∧ (∀ t, parseNoradID (73 :: t) = .error .invalidAlpha5)
    ∧ (∀ t, parseNoradID (79 :: t) = .error .invalidAlpha5)
    ∧ (∀ ds, ds.length = 5 → ds.all isDigitB = true →
        parseNoradID ds = .ok ((digitsVal ds : ℤ))) := by
  refine ⟨?_, by decide, by decide, ?_, ?_, ?_⟩
  · intro c pre ds hmap hlen hdig
    have hlet := alpha5Map_isLetter hmap
    have hne : ds ≠ [] := by
      intro h; rw [h] at hlen; simp at hlen
    have hslice : goSlice (c :: ds) 1 5 = ds := by
      have htake : ds.take 4 = ds := List.take_of_length_le (by rw [hlen])
      simp [goSlice, htake]
    have hlen5 : ¬ (c :: ds).length < 5 := by
      simp [hlen]
    simp only [parseNoradID, if_pos hlet, hmap, hlen5, if_false, ite_false, hslice,
      goAtoi_digits ds hne hdig]
  · intro t
    have h : (65 ≤ 73 ∧ 73 ≤ 90) := by omega
    simp [parseNoradID, h, alpha5Map]
  · intro t
    have h : (65 ≤ 79 ∧ 79 ≤ 90) := by omega
    simp [parseNoradID, h, alpha5Map]
  · intro ds hlen hdig
    match ds, hlen with
    | c :: t, _ =>
      have hc : isDigitB c = true := List.all_eq_true.mp hdig c (by simp)
      have hc' : 48 ≤ c ∧ c ≤ 57 := by simpa [isDigitB] using hc
      have hnl : ¬ (65 ≤ c ∧ c ≤ 90) := by omega
      have hne : c :: t ≠ [] := by simp
      simp only [parseNoradID, if_neg hnl, goAtoi_digits (c :: t) hne hdig]

/-- C5 witness: A0001 decodes to 100001 through the general statement. -/
theorem parseNoradID_spec_witness :
    parseNoradID (65 :: [48, 48, 48, 49])
      = .ok ((10 : ℤ) * 10000 + (digitsVal [48, 48, 48, 49] : ℤ)) :=
  parseNoradID_spec.1 65 10 [48, 48, 48, 49] (by decide) (by decide) (by decide)

/-! ### Propagator NaN check (`Propagate`, `isNaN`) -/

/-- An IEEE-754 `float64` as far as the propagator's checks are concerned:
a finite value (exact, as a rational), a NaN, or a signed infinity. -/
inductive GoFloat where
  | finite (q : ℚ)
  | nan
  | inf (neg : Bool)
  deriving DecidableEq, Repr

/-- Go `==` on floats: NaN is unequal to everything, infinities compare by
sign, finite values by value. -/
def goFloatEqB : GoFloat → GoFloat → Bool
  | .finite a, .finite b => decide (a = b)
  | .inf a, .inf b => a == b
  | _, _ => false

/-- `isNaN(f)` from the source: `f != f` (true exactly for NaN). -/
def isNaN (f : GoFloat) : Bool := !(goFloatEqB f f)

/-- Whether a float component is finite (neither NaN nor infinite). -/
def isFiniteF : GoFloat → Bool
  | .finite _ => true
  | _ => false

/-- Propagation errors of the `Propagator` wrapper. -/
inductive PropErr where
  | propagationFailed
  | nilTLE
  | invalidStep
  deriving DecidableEq, Repr

/-- A kernel output vector (position or velocity triple). -/
structure Vec3F where
  x : GoFloat
  y : GoFloat
  z : GoFloat
  deriving DecidableEq, Repr

/-- `ECIPosition` as returned by `Propagator.Propagate` (time in Unix
nanoseconds). -/
structure ECIPositionF where
  X : GoFloat
  Y : GoFloat
  Z : GoFloat
  Vx : GoFloat
  Vy : GoFloat
  Vz : GoFloat
  Time : ℤ
  deriving DecidableEq, Repr

/-- `Propagator.Propagate`: the SGP4 kernel output (`position`,
`velocity`, here passed in as the kernel's result at time `t`) is rejected
with `ErrPropagationFailed` when a *position* component is NaN, and
returned verbatim otherwise. -/
def Propagate (position velocity : Vec3F) (t : ℤ) : Except PropErr ECIPositionF :=
  if isNaN position.x || isNaN position.y || isNaN position.z then
    .error .propagationFailed
  else
    .ok ⟨position.x, position.y, position.z, velocity.x, velocity.y, velocity.z, t⟩

/-- C1 counterexample: a kernel output with finite position but NaN
velocity is returned as a result (no error) with a non-finite component,
and an infinite position component also passes the check. -/
theorem Propagate_claim_counterexample :
    (Propagate ⟨.finite 7000, .finite 0, .finite 0⟩ ⟨.nan, .finite 0, .finite 0⟩ 0
        = .ok ⟨.finite 7000, .finite 0, .finite 0, .nan, .finite 0, .finite 0, 0⟩)
    ∧ isFiniteF GoFloat.nan = false
    ∧ (Propagate ⟨.inf false, .finite 0, .finite 0⟩ ⟨.finite 0, .finite 0, .finite 0⟩ 0
        = .ok ⟨.inf false, .finite 0, .finite 0, .finite 0, .finite 0, .finite 0, 0⟩)
    ∧ isFiniteF (GoFloat.inf false) = false := by
  refine ⟨by decide, by decide, by decide, by decide⟩

/-- C1 (amended): `Propagate` fails with the propagation error exactly
when some *position* component is NaN; otherwise the kernel output —
including any NaN velocity or infinite component — is returned verbatim. -/
theorem Propagate_nan_position_check (position velocity : Vec3F) (t : ℤ) :
    (Propagate position velocity t = .error .propagationFailed
      ↔ (isNaN position.x || isNaN position.y || isNaN position.z) = true)
    ∧ (∀ r, Propagate position velocity t = .ok r →
        r.X = position.x ∧ r.Y = position.y ∧ r.Z = position.z
        ∧ r.Vx = velocity.x ∧ r.Vy = velocity.y ∧ r.Vz = velocity.z ∧ r.Time = t) := by
  constructor
  · unfold Propagate
    by_cases h : (isNaN position.x || isNaN position.y || isNaN position.z) = true
    · simp [h]
    · simp [h]
  · intro r hr
    unfold Propagate at hr
    by_cases h : (isNaN position.x || isNaN position.y || isNaN position.z) = true
    · rw [if_pos h] at hr; exact absurd hr (by simp)
    · rw [if_neg h] at hr
      injection hr with hr
      rw [← hr]
      exact ⟨rfl, rfl, rfl, rfl, rfl, rfl, rfl⟩

/-- C1 witness: an all-NaN kernel position is reported as the propagation
failure, through the general statement. -/
theorem Propagate_nan_position_check_witness :
    Propagate ⟨.nan, .nan, .nan⟩ ⟨.finite 0, .finite 0, .finite 0⟩ 5
      = .error .propagationFailed :=
  (Propagate_nan_position_check ⟨.nan, .nan, .nan⟩ ⟨.finite 0, .finite 0, .finite 0⟩ 5).1.mpr
    (by decide)

/-! ### Celestrak client retry loop (`doRequest`, `fetch`) -/

/-- One upstream interaction as seen by `doRequest`: either an HTTP
response with a status code and body, or a transport-level failure. -/
inductive HTTPResp where
  | status (code : ℕ) (body : String)
  | netErr
  deriving Repr

/-- Errors of the Celestrak client. `exhausted e` models the final
`fmt.Errorf("after %d retries: %w", lastErr)` wrapper around the last
underlying error. -/
inductive CelErr where
  | notFound
  | rateLimited
  | serverErr (code : ℕ)
  | unexpectedStatus (code : ℕ)
  | transport
  | exhausted (last : CelErr)
  deriving DecidableEq, Repr

/-- The body Celestrak serves when no GP data exists. -/
def noGPBody : String := "No GP data found"

/-- An empty response body (for concrete scenarios). -/
def emptyBody : String := ""

/-- `CelestrakClient.doRequest`: one HTTP attempt. 200 with the
"No GP data found" body and 404 map to `ErrCelestrakNotFound`,
429 to `ErrCelestrakRateLimit`, 5xx to `ErrCelestrakServerError`,
other statuses to a generic error; transport failures are wrapped errors. -/
def doRequest (r : HTTPResp) : Except CelErr String :=
  match r with
  | .netErr => .error .transport
  | .status code body =>
    if code = 200 then
      if body = noGPBody then .error .notFound else .ok body
    else if code = 404 then .error .notFound
    else if code = 429 then .error .rateLimited
    else if 500 ≤ code then .error (.serverErr code)
    else .error (.unexpectedStatus code)

/-- Outcome of one `fetch`: the result, the number of HTTP attempts made,
and the backoff sleeps (in seconds) performed, in order. -/
structure FetchOut where
  result : Except CelErr String
  attempts : ℕ
  backoffs : List ℕ
  deriving Repr

/-- The retry loop of `CelestrakClient.fetch`, for `attempt` the current
loop index and `budget = maxRetries - attempt` the remaining iterations.
Before every attempt but the first the client sleeps `2^(attempt-1)`
seconds; an error equal to the `not-found` sentinel is returned at once;
any other error is retried while the budget lasts, and the last error is
wrapped once the loop ends. -/
def fetchAux (responses : ℕ → HTTPResp) : ℕ → ℕ → FetchOut
  | attempt, budget =>
    let bk : List ℕ := if attempt = 0 then [] else [2 ^ (attempt - 1)]
    match doRequest (responses attempt) with
    | .ok d => ⟨.ok d, 1, bk⟩
    | .error e =>
      if e = CelErr.notFound then ⟨.error CelErr.notFound, 1, bk⟩
      else
        match budget with
        | 0 => ⟨.error (.exhausted e), 1, bk⟩
        | b + 1 =>
          let r := fetchAux responses (attempt + 1) b
          ⟨r.result, r.attempts + 1, bk ++ r.backoffs⟩

/-- `CelestrakClient.fetch` with `maxRetries`, against an oracle giving
the upstream's behaviour at every attempt index. -/
def fetch (maxRetries : ℕ) (responses : ℕ → HTTPResp) : FetchOut :=
  fetchAux responses 0 maxRetries

/-- The backoff slept before loop iteration `x`: nothing before the first
attempt, `2^(x-1)` seconds otherwise. -/
def bkOf (x : ℕ) : List ℕ := if x = 0 then [] else [2 ^ (x - 1)]

theorem flatten_map_singleton {α β : Type} (f : α → β) (l : List α) :
    (l.map (fun a => [f a])).flatten = l.map f := by
  induction l with
  | nil => rfl
  | cons a t ih => simp [ih]

theorem fetchAux_spec (responses : ℕ → HTTPResp) :
    ∀ (b a : ℕ),
      1 ≤ (fetchAux responses a b).attempts
      ∧ (fetchAux responses a b).attempts ≤ b + 1
      ∧ (fetchAux responses a b).backoffs
          = ((List.range (fetchAux responses a b).attempts).map (fun i => bkOf (a + i))).flatten
      ∧ (∀ k, k + 1 < (fetchAux responses a b).attempts →
          ∃ e, doRequest (responses (a + k)) = .error e ∧ e ≠ CelErr.notFound) := by
  have base : ∀ (bb a : ℕ) (out : FetchOut), out.attempts = 1 → out.backoffs = bkOf a →
      1 ≤ out.attempts ∧ out.attempts ≤ bb + 1
      ∧ out.backoffs = ((List.range out.attempts).map (fun i => bkOf (a + i))).flatten
      ∧ (∀ k, k + 1 < out.attempts →
          ∃ e, doRequest (responses (a + k)) = .error e ∧ e ≠ CelErr.notFound) := by
    intro bb a out h1 h2
    refine ⟨by omega, by omega, ?_, ?_⟩
    · rw [h1, h2, show List.range 1 = [0] from rfl]; simp
    · intro k hk; rw [h1] at hk; omega
  intro b
  induction b with
  | zero =>
    intro a
    rcases hreq : doRequest (responses a) with e | d
    · by_cases he : e = CelErr.notFound
      · have hval : fetchAux responses a 0 = ⟨.error CelErr.notFound, 1, bkOf a⟩ := by
          unfold fetchAux; rw [hreq]; simp [he, bkOf]
        rw [hval]; exact base 0 a _ rfl rfl
      · have hval : fetchAux responses a 0 = ⟨.error (.exhausted e), 1, bkOf a⟩ := by
          unfold fetchAux; rw [hreq]; simp [he, bkOf]
        rw [hval]; exact base 0 a _ rfl rfl
    · have hval : fetchAux responses a 0 = ⟨.ok d, 1, bkOf a⟩ := by
        unfold fetchAux; rw [hreq]; simp [bkOf]
      rw [hval]; exact base 0 a _ rfl rfl
  | succ b ih =>
    intro a
    rcases hreq : doRequest (responses a) with e | d
    · by_cases he : e = CelErr.notFound
      · have hval : fetchAux responses a (b + 1) = ⟨.error CelErr.notFound, 1, bkOf a⟩ := by
          unfold fetchAux; rw [hreq]; simp [he, bkOf]
        rw [hval]; exact base (b + 1) a _ rfl rfl
      · have hval : fetchAux responses a (b + 1)
            = ⟨(fetchAux responses (a + 1) b).result,
               (fetchAux responses (a + 1) b).attempts + 1,
               bkOf a ++ (fetchAux responses (a + 1) b).backoffs⟩ := by
          conv_lhs => unfold fetchAux
          rw [hreq]; simp [he, bkOf]
        obtain ⟨ih1, ih2, ih3, ih4⟩ := ih (a + 1)
        rw [hval]
        refine ⟨by simp, ?_, ?_, ?_⟩
        · show (fetchAux responses (a + 1) b).attempts + 1 ≤ b + 1 + 1
          omega
        · show bkOf a ++ (fetchAux responses (a + 1) b).backoffs = _
          rw [ih3]
          rw [show (⟨(fetchAux responses (a + 1) b).result,
               (fetchAux responses (a + 1) b).attempts + 1,
               bkOf a ++ (fetchAux responses (a + 1) b).backoffs⟩ : FetchOut).attempts
              = (fetchAux responses (a + 1) b).attempts + 1 from rfl]
          rw [List.range_succ_eq_map]
          simp only [List.map_cons, List.map_map, List.flatten_cons, Nat.add_zero]
          congr 1
          apply congrArg
          apply List.map_congr_left
          intro i _
          simp only [Function.comp_apply, Nat.succ_eq_add_one]
          congr 1
          omega
        · intro k hk
          have hk' : k + 1 < (fetchAux responses (a + 1) b).attempts + 1 := hk
          match k with
          | 0 => exact ⟨e, by simpa using hreq, he⟩
          | j + 1 =>
            obtain ⟨e', he1, he2⟩ := ih4 j (by omega)
            exact ⟨e', by rw [show a + (j + 1) = a + 1 + j by omega]; exact he1, he2⟩
    · have hval : fetchAux responses a (b + 1) = ⟨.ok d, 1, bkOf a⟩ := by
        unfold fetchAux; rw [hreq]; simp [bkOf]
      rw [hval]; exact base (b + 1) a _ rfl rfl

/-- C3 counterexample: with `max_retries = 1` and an upstream that always
answers 500, `fetch` makes 2 HTTP attempts — more than `max_retries`. -/
theorem fetch_claim_counterexample :
    (fetch 1 (fun _ => HTTPResp.status 500 emptyBody)).attempts = 2
    ∧ ¬ ((fetch 1 (fun _ => HTTPResp.status 500 emptyBody)).attempts ≤ 1) := by
  constructor
  · rfl
  · decide

/-- C3 (amended): one `fetch` against an upstream oracle makes at most
`maxRetries + 1` HTTP attempts (the loop runs `attempt = 0 .. maxRetries`);
the sleeps performed are exactly `2^0, 2^1, …` seconds, one before each
attempt after the first; a first answer mapping to `not-found` (404 or a
200 body equal to "No GP data found") is returned at once with a single
attempt and no sleep; and every attempt that was followed by another one
had failed with an error other than `not-found`. -/
theorem fetch_retry_spec (maxRetries : ℕ) (responses : ℕ → HTTPResp) :
    (fetch maxRetries responses).attempts ≤ maxRetries + 1
    ∧ (fetch maxRetries responses).backoffs
        = (List.range ((fetch maxRetries responses).attempts - 1)).map (fun i => 2 ^ i)
    ∧ (doRequest (responses 0) = .error CelErr.notFound →
        fetch maxRetries responses = ⟨.error CelErr.notFound, 1, []⟩)
    ∧ (∀ k, k + 1 < (fetch maxRetries responses).attempts →
        ∃ e, doRequest (responses k) = .error e ∧ e ≠ CelErr.notFound) := by
  obtain ⟨h1, h2, h3, h4⟩ := fetchAux_spec responses maxRetries 0
  refine ⟨h2, ?_, ?_, ?_⟩
  · show (fetchAux responses 0 maxRetries).backoffs
      = (List.range ((fetchAux responses 0 maxRetries).attempts - 1)).map (fun i => 2 ^ i)
    rw [h3]
    have hn1 : (fetchAux responses 0 maxRetries).attempts
        = ((fetchAux responses 0 maxRetries).attempts - 1) + 1 := by omega
    conv_lhs => rw [hn1, List.range_succ_eq_map]
    rw [List.map_cons, List.flatten_cons]
    have h0 : bkOf (0 + 0) = [] := rfl
    rw [h0, List.nil_append, List.map_map]
    rw [show (fun i => bkOf (0 + i)) ∘ Nat.succ = fun i => [2 ^ i] from
      funext fun i => by simp [bkOf]]
    exact flatten_map_singleton _ _
  · intro hnf
    unfold fetch fetchAux
    rcases maxRetries with _ | b <;> simp [hnf]
  · intro k hk
    have := h4 k hk
    simpa using this

/-- C3 witness: a server that answers 500 on the first two attempts and
succeeds on the third, with `max_retries = 2`, satisfies all four
conjuncts of the amended retry specification. -/
theorem fetch_retry_spec_witness :
    (fetch 2 (fun n => if n < 2 then HTTPResp.status 500 emptyBody
        else HTTPResp.status 200 emptyBody)).attempts ≤ 3
    ∧ (fetch 2 (fun n => if n < 2 then HTTPResp.status 500 emptyBody
        else HTTPResp.status 200 emptyBody)).backoffs
        = (List.range ((fetch 2 (fun n => if n < 2 then HTTPResp.status 500 emptyBody
            else HTTPResp.status 200 emptyBody)).attempts - 1)).map (fun i => 2 ^ i)
    ∧ (doRequest ((fun n => if n < 2 then HTTPResp.status 500 emptyBody
        else HTTPResp.status 200 emptyBody) 0) = .error CelErr.notFound →
        fetch 2 (fun n => if n < 2 then HTTPResp.status 500 emptyBody
          else HTTPResp.status 200 emptyBody) = ⟨.error CelErr.notFound, 1, []⟩)
    ∧ (∀ k, k + 1 < (fetch 2 (fun n => if n < 2 then HTTPResp.status 500 emptyBody
        else HTTPResp.status 200 emptyBody)).attempts →
        ∃ e, doRequest ((fun n => if n < 2 then HTTPResp.status 500 emptyBody
          else HTTPResp.status 200 emptyBody) k) = .error e ∧ e ≠ CelErr.notFound) :=
  fetch_retry_spec 2
    (fun n => if n < 2 then HTTPResp.status 500 emptyBody else HTTPResp.status 200 emptyBody)

/-! ### Ground track (`TrackPoint`, antimeridian split, past/future split) -/

/-- A ground-track point: longitude and latitude in degrees (exact
rationals standing for the `float64` values), Unix-millisecond timestamp. -/
structure TrackPoint where
  Lon : ℚ
  Lat : ℚ
  TS : ℤ
  deriving DecidableEq, Repr

/-- Go `int64(x)` conversion of a float: truncation toward zero. -/
def ratTrunc (q : ℚ) : ℤ := if 0 ≤ q then ⌊q⌋ else -⌊-q⌋

/-- Longitude-jump threshold for an antimeridian crossing (degrees). -/
def antimeridianThreshold : ℚ := 270

/-- `interpolateAntimeridian`: the two synthetic boundary points inserted
at a crossing.  The outgoing boundary longitude follows the sign of
`p1.Lon`; the interpolation parameter solves for the crossing against the
±360°-unwrapped longitude of `p2`, guarded at `1e-10` and clamped to
`[0, 1]`; latitude and timestamp are interpolated linearly (the timestamp
with Go's truncating `int64` conversion). -/
def interpolateAntimeridian (p1 p2 : TrackPoint) : TrackPoint × TrackPoint :=
  let boundaryLon1 : ℚ := if 0 < p1.Lon then 180 else -180
  let boundaryLon2 : ℚ := if 0 < p1.Lon then -180 else 180
  let p2LonUnwrapped : ℚ := if 0 < p1.Lon then p2.Lon + 360 else p2.Lon - 360
  let dLon : ℚ := p2LonUnwrapped - p1.Lon
  let t0 : ℚ := if 1 / 10000000000 < |dLon| then (boundaryLon1 - p1.Lon) / dLon else 1 / 2
  let tc : ℚ := max 0 (min 1 t0)
  let interpLat : ℚ := p1.Lat + (p2.Lat - p1.Lat) * tc
  let interpTS : ℤ := p1.TS + ratTrunc (((p2.TS - p1.TS : ℤ) : ℚ) * tc)
  (⟨boundaryLon1, interpLat, interpTS⟩, ⟨boundaryLon2, interpLat, interpTS⟩)

/-- The loop body of `splitAtAntimeridian`: walk the remaining points with
the previous point and the currently open segment. -/
def splitAux (prev : TrackPoint) (cur : List TrackPoint) :
    List TrackPoint → List (List TrackPoint)
  | [] => [cur]
  | p :: rest =>
    if antimeridianThreshold < |p.Lon - prev.Lon| then
      let bp := interpolateAntimeridian prev p
      (cur ++ [bp.1]) :: splitAux p [bp.2, p] rest
    else
      splitAux p (cur ++ [p]) rest

/-- `splitAtAntimeridian`: split a point list into segments at every
longitude jump above 270°, inserting the two boundary points. -/
def splitAtAntimeridian : List TrackPoint → List (List TrackPoint)
  | [] => []
  | p :: rest => splitAux p [p] rest

/-- The index search of `splitPastFuture`: first index whose timestamp is
at least `nowMs` (`none` when there is none; the Go loop leaves `-1`). -/
def firstGEIdx (nowMs : ℤ) : List TrackPoint → Option ℕ
  | [] => none
  | p :: t => if nowMs ≤ p.TS then some 0 else (firstGEIdx nowMs t).map (· + 1)

/-- `splitIdx` as the Go code holds it: the found index, or `-1`. -/
def goSplitIdx (seg : List TrackPoint) (nowMs : ℤ) : ℤ :=
  match firstGEIdx nowMs seg with
  | some i => (i : ℤ)
  | none => -1

/-- `splitPastFuture`: route every segment to the past (all timestamps
before `nowMs`), to the future (first timestamp at least `nowMs`), or cut
it at the first index whose timestamp is at least `nowMs`. -/
def splitPastFuture (segments : List (List TrackPoint)) (nowMs : ℤ) :
    List (List TrackPoint) × List (List TrackPoint) :=
  match segments with
  | [] => ([], [])
  | seg :: rest =>
    let pr := splitPastFuture rest nowMs
    match seg with
    | [] => pr
    | p0 :: t =>
      if ((p0 :: t).getLast (by simp)).TS < nowMs then ((p0 :: t) :: pr.1, pr.2)
      else if nowMs ≤ p0.TS then (pr.1, (p0 :: t) :: pr.2)
      else
        let splitIdx := goSplitIdx (p0 :: t) nowMs
        if splitIdx ≤ 0 then (pr.1, (p0 :: t) :: pr.2)
        else
          let pastPart := (p0 :: t).take splitIdx.toNat
          let futurePart := (p0 :: t).drop splitIdx.toNat
          ((if pastPart = [] then pr.1 else pastPart :: pr.1),
           (if futurePart = [] then pr.2 else futurePart :: pr.2))

/-- Errors of the ground-track generator. -/
inductive TrackErr where
  | nilTLEForTrack
  | invalidStep
  | invalidRange
  | propagationAt (t : ℤ)
  deriving DecidableEq, Repr

/-- A ground track: past and future segment lists plus the NORAD id. -/
structure GroundTrack where
  Past : List (List TrackPoint)
  Future : List (List TrackPoint)
  NoradID : ℤ
  deriving DecidableEq, Repr

/-- The sampling loop of `generateTrackPoints`: walk
`t = start, start+step, … ≤ endT`, asking the propagation-and-transform
pipeline `f` for the ground point at each instant (`f t = none` models a
propagation failure at `t`).  A failure after at least one collected point
returns the collected prefix with no error; a failure at the very first
sample returns the propagation error.  The guard `0 < step` reflects that
the caller has already rejected non-positive steps. -/
def genAux (f : ℤ → Option TrackPoint) (endT step : ℤ) (t : ℤ) :
    Except TrackErr (List TrackPoint) :=
  if h : 0 < step ∧ t ≤ endT then
    match f t with
    | none => .error (.propagationAt t)
    | some p =>
      match genAux f endT step (t + step) with
      | .error _ => .ok [p]
      | .ok ps => .ok (p :: ps)
  else .ok []
termination_by (endT + step - t).toNat
decreasing_by
  obtain ⟨h1, h2⟩ := h
  omega

/-- The spec's description of the collected points: the samples gathered
before the first propagation failure (or the end of the interval). -/
def collectedPoints (f : ℤ → Option TrackPoint) (endT step : ℤ) (t : ℤ) :
    List TrackPoint :=
  if h : 0 < step ∧ t ≤ endT then
    match f t with
    | none => []
    | some p => p :: collectedPoints f endT step (t + step)
  else []
termination_by (endT + step - t).toNat
decreasing_by
  obtain ⟨h1, h2⟩ := h
  omega

/-- `GenerateGroundTrack` over an abstract sampling pipeline `f`
(the composition `Propagate → ECIToECEF → ECEFToLLA → degrees` for the
TLE's propagator; `NewPropagator`'s nil/missing-lines errors are outside
this abstraction).  Validation, swap of a reversed interval, sampling,
antimeridian split and past/future split follow the source. -/
def GenerateGroundTrack (f : ℤ → Option TrackPoint) (noradID : ℤ)
    (start endT now step : ℤ) : Except TrackErr GroundTrack :=
  if step ≤ 0 then .error .invalidStep
  else if start = endT then .error .invalidRange
  else
    let s := if endT < start then endT else start
    let e := if endT < start then start else endT
    match genAux f e step s with
    | .error err => .error err
    | .ok allPoints =>
      if allPoints = [] then .ok ⟨[], [], noradID⟩
      else
        let segments := splitAtAntimeridian allPoints
        let pf := splitPastFuture segments now
        .ok ⟨pf.1, pf.2, noradID⟩

/-! ### Claim C7 — past/future split -/

/-- The timestamp order relation on track points. -/
def tsLE (a b : TrackPoint) : Prop := a.TS ≤ b.TS

theorem le_getLast_of_sorted :
    ∀ (seg : List TrackPoint) (h : seg ≠ []), seg.Pairwise tsLE →
      ∀ p ∈ seg, p.TS ≤ (seg.getLast h).TS := by
  intro seg
  induction seg with
  | nil => intro h; exact absurd rfl h
  | cons a l ih =>
    intro h hs p hp
    match l, hp with
    | [], hp =>
      have : p = a := by simpa using hp
      simp [this]
    | b :: t, hp =>
      have hlast : (a :: b :: t).getLast h = (b :: t).getLast (by simp) :=
        List.getLast_cons (by simp)
      rw [hlast]
      rcases List.mem_cons.mp hp with hpa | hpl
      · subst hpa
        exact List.rel_of_pairwise_cons hs (List.getLast_mem (l := b :: t) (by simp))
      · exact ih (by simp) (List.Pairwise.of_cons hs) p hpl

theorem head_le_of_sorted (p0 : TrackPoint) (t : List TrackPoint)
    (hs : (p0 :: t).Pairwise tsLE) : ∀ p ∈ p0 :: t, p0.TS ≤ p.TS := by
  intro p hp
  rcases List.mem_cons.mp hp with hpa | hpl
  · subst hpa; exact le_refl _
  · exact List.rel_of_pairwise_cons hs hpl

theorem firstGEIdx_some_spec (nowMs : ℤ) :
    ∀ (l : List TrackPoint) (j : ℕ), firstGEIdx nowMs l = some j →
      j < l.length ∧ (∀ p ∈ l.take j, p.TS < nowMs)
      ∧ ∃ pj, l[j]? = some pj ∧ nowMs ≤ pj.TS := by
  intro l
  induction l with
  | nil => intro j h; exact absurd h (by simp [firstGEIdx])
  | cons a t ih =>
    intro j h
    unfold firstGEIdx at h
    by_cases ha : nowMs ≤ a.TS
    · rw [if_pos ha] at h
      have hj : j = 0 := by
        have := Option.some.inj h
        omega
      subst hj
      exact ⟨by simp, by simp, a, by simp, ha⟩
    · rw [if_neg ha] at h
      rcases hft : firstGEIdx nowMs t with _ | j'
      · rw [hft] at h; exact absurd h (by simp)
      · rw [hft] at h
        have hj : j = j' + 1 := by
          simp at h
          omega
        subst hj
        obtain ⟨h1, h2, pj, h3, h4⟩ := ih j' hft
        refine ⟨by simp; omega, ?_, pj, by simpa using h3, h4⟩
        intro p hp
        rcases List.mem_cons.mp (by simpa using hp) with hpa | hpl
        · subst hpa; omega
        · exact h2 p hpl

theorem firstGEIdx_none_spec (nowMs : ℤ) :
    ∀ (l : List TrackPoint), firstGEIdx nowMs l = none → ∀ p ∈ l, p.TS < nowMs := by
  intro l
  induction l with
  | nil => intro _ p hp; exact absurd hp (by simp)
  | cons a t ih =>
    intro h p hp
    unfold firstGEIdx at h
    by_cases ha : nowMs ≤ a.TS
    · rw [if_pos ha] at h; exact absurd h (by simp)
    · rw [if_neg ha] at h
      rcases List.mem_cons.mp hp with hpa | hpl
      · subst hpa; omega
      · rcases hft : firstGEIdx nowMs t with _ | j'
        · exact ih hft p hpl
        · rw [hft] at h; exact absurd h (by simp)

theorem mem_of_getElem_some {α : Type} (l : List α) (n : ℕ) (a : α)
    (h : l[n]? = some a) : a ∈ l := by
  have hn : n < l.length := by
    by_contra hc
    rw [List.getElem?_eq_none (by omega)] at h
    exact Option.noConfusion h
  rw [List.getElem?_eq_getElem hn] at h
  have hval := Option.some.inj h
  rw [← hval]
  exact List.getElem_mem hn

theorem splitPastFuture_cons_cons (p0 : TrackPoint) (t : List TrackPoint)
    (rest : List (List TrackPoint)) (nowMs : ℤ) :
    splitPastFuture ((p0 :: t) :: rest) nowMs =
      if ((p0 :: t).getLast (by simp)).TS < nowMs then
        ((p0 :: t) :: (splitPastFuture rest nowMs).1, (splitPastFuture rest nowMs).2)
      else if nowMs ≤ p0.TS then
        ((splitPastFuture rest nowMs).1, (p0 :: t) :: (splitPastFuture rest nowMs).2)
      else if goSplitIdx (p0 :: t) nowMs ≤ 0 then
        ((splitPastFuture rest nowMs).1, (p0 :: t) :: (splitPastFuture rest nowMs).2)
      else
        ((if (p0 :: t).take (goSplitIdx (p0 :: t) nowMs).toNat = []
            then (splitPastFuture rest nowMs).1
            else (p0 :: t).take (goSplitIdx (p0 :: t) nowMs).toNat
                  :: (splitPastFuture rest nowMs).1),
         (if (p0 :: t).drop (goSplitIdx (p0 :: t) nowMs).toNat = []
            then (splitPastFuture rest nowMs).2
            else (p0 :: t).drop (goSplitIdx (p0 :: t) nowMs).toNat
                  :: (splitPastFuture rest nowMs).2)) := rfl

/-- C7: with non-decreasing timestamps inside each segment,
`splitPastFuture` sends to the past only segments whose every point is
strictly before `nowMs`, to the future only segments whose every point
(in particular the first) is at least `nowMs`, and cuts any straddling
segment exactly at its first index `j` whose timestamp is at least
`nowMs`: the left part `take j` goes to the past and the right part
`drop j` to the future. -/
theorem splitPastFuture_spec (segments : List (List TrackPoint)) (nowMs : ℤ)
    (hsort : ∀ seg ∈ segments, seg.Pairwise tsLE) :
    (∀ seg ∈ (splitPastFuture segments nowMs).1, seg ≠ [] ∧ ∀ p ∈ seg, p.TS < nowMs)
    ∧ (∀ seg ∈ (splitPastFuture segments nowMs).2, seg ≠ [] ∧ ∀ p ∈ seg, nowMs ≤ p.TS)
    ∧ (∀ seg ∈ segments, ∀ j, firstGEIdx nowMs seg = some j → 0 < j →
        seg.take j ∈ (splitPastFuture segments nowMs).1
        ∧ seg.drop j ∈ (splitPastFuture segments nowMs).2) := by
  revert hsort
  induction segments with
  | nil =>
    intro hsort
    exact ⟨by simp [splitPastFuture], by simp [splitPastFuture], by simp⟩
  | cons seg rest ih =>
    intro hsort
    obtain ⟨ih1, ih2, ih3⟩ := ih (fun s hs => hsort s (List.mem_cons_of_mem _ hs))
    match seg with
    | [] =>
      have heq : splitPastFuture ([] :: rest) nowMs = splitPastFuture rest nowMs := rfl
      rw [heq]
      refine ⟨ih1, ih2, ?_⟩
      intro s hs j hj hj0
      rcases List.mem_cons.mp hs with hseq | hsr
      · subst hseq; exact absurd hj (by simp [firstGEIdx])
      · exact ih3 s hsr j hj hj0
    | p0 :: t =>
      have hps : (p0 :: t).Pairwise tsLE := hsort _ (List.mem_cons_self _ _)
      rw [splitPastFuture_cons_cons]
      by_cases hlast : ((p0 :: t).getLast (by simp)).TS < nowMs
      · -- whole segment strictly in the past
        rw [if_pos hlast]
        refine ⟨?_, ih2, ?_⟩
        · intro s hs
          rcases List.mem_cons.mp hs with hseq | hsr
          · subst hseq
            refine ⟨by simp, ?_⟩
            intro p hp
            have := le_getLast_of_sorted (p0 :: t) (by simp) hps p hp
            omega
          · exact ih1 s hsr
        · intro s hs j hj hj0
          rcases List.mem_cons.mp hs with hseq | hsr
          · subst hseq
            obtain ⟨hjlen, _, pj, hpj, hpjts⟩ := firstGEIdx_some_spec nowMs (p0 :: t) j hj
            have hmem : pj ∈ p0 :: t := mem_of_getElem_some _ _ _ hpj
            have := le_getLast_of_sorted (p0 :: t) (by simp) hps pj hmem
            omega
          · obtain ⟨ha, hb⟩ := ih3 s hsr j hj hj0
            exact ⟨List.mem_cons_of_mem _ ha, hb⟩
      · rw [if_neg hlast]
        by_cases hp0 : nowMs ≤ p0.TS
        · -- whole segment in the future
          rw [if_pos hp0]
          refine ⟨ih1, ?_, ?_⟩
          · intro s hs
            rcases List.mem_cons.mp hs with hseq | hsr
            · subst hseq
              refine ⟨by simp, ?_⟩
              intro p hp
              have := head_le_of_sorted p0 t hps p hp
              omega
            · exact ih2 s hsr
          · intro s hs j hj hj0
            rcases List.mem_cons.mp hs with hseq | hsr
            · subst hseq
              have : firstGEIdx nowMs (p0 :: t) = some 0 := by
                unfold firstGEIdx; rw [if_pos hp0]
              rw [this] at hj
              have := Option.some.inj hj
              omega
            · obtain ⟨ha, hb⟩ := ih3 s hsr j hj hj0
              exact ⟨ha, List.mem_cons_of_mem _ hb⟩
        · -- straddling segment: cut at the first index ≥ nowMs
          rw [if_neg hp0]
          rcases hfi : firstGEIdx nowMs (p0 :: t) with _ | j
          · exfalso
            have hall := firstGEIdx_none_spec nowMs (p0 :: t) hfi
            have := hall _ (List.getLast_mem (l := p0 :: t) (by simp))
            omega
          · have hjpos : 0 < j := by
              unfold firstGEIdx at hfi
              rw [if_neg hp0] at hfi
              rcases hft : firstGEIdx nowMs t with _ | j'
              · rw [hft] at hfi; exact absurd hfi (by simp)
              · rw [hft] at hfi
                simp at hfi
                omega
            have hsi : goSplitIdx (p0 :: t) nowMs = (j : ℤ) := by
              unfold goSplitIdx; rw [hfi]
            have hnot : ¬ goSplitIdx (p0 :: t) nowMs ≤ 0 := by
              rw [hsi]; omega
            rw [if_neg hnot, hsi, Int.toNat_natCast]
            obtain ⟨hjlen, htake, pj, hpj, hpjts⟩ := firstGEIdx_some_spec nowMs (p0 :: t) j hfi
            have htake_ne : (p0 :: t).take j ≠ [] := by
              match j, hjpos with
              | j + 1, _ => simp
            have hdrop_ne : (p0 :: t).drop j ≠ [] := by
              rw [Ne, List.drop_eq_nil_iff]
              omega
            rw [if_neg htake_ne, if_neg hdrop_ne]
            have hdrop_all : ∀ p ∈ (p0 :: t).drop j, nowMs ≤ p.TS := by
              have hj' : j < (p0 :: t).length := hjlen
              have hcons : (p0 :: t).drop j = (p0 :: t)[j] :: (p0 :: t).drop (j + 1) :=
                List.drop_eq_getElem_cons hj'
              have hpj' : (p0 :: t)[j] = pj := by
                rw [List.getElem?_eq_getElem hj'] at hpj
                exact Option.some.inj hpj
              have hsorted : ((p0 :: t).drop j).Pairwise tsLE :=
                hps.sublist (List.drop_sublist j (p0 :: t))
              intro p hp
              rw [hcons] at hsorted hp
              have := head_le_of_sorted _ _ hsorted p hp
              rw [hpj'] at this
              have h2 : nowMs ≤ pj.TS := hpjts
              calc nowMs ≤ pj.TS := h2
                _ ≤ p.TS := this
            refine ⟨?_, ?_, ?_⟩
            · intro s hs
              rcases List.mem_cons.mp hs with hseq | hsr
              · subst hseq
                exact ⟨htake_ne, htake⟩
              · exact ih1 s hsr
            · intro s hs
              rcases List.mem_cons.mp hs with hseq | hsr
              · subst hseq
                exact ⟨hdrop_ne, hdrop_all⟩
              · exact ih2 s hsr
            · intro s hs j0 hj0 hj0pos
              rcases List.mem_cons.mp hs with hseq | hsr
              · subst hseq
                rw [hfi] at hj0
                have hj0j : j0 = j := (Option.some.inj hj0).symm
                subst hj0j
                exact ⟨List.mem_cons_self _ _, List.mem_cons_self _ _⟩
              · obtain ⟨ha, hb⟩ := ih3 s hsr j0 hj0 hj0pos
                exact ⟨List.mem_cons_of_mem _ ha, List.mem_cons_of_mem _ hb⟩

/-- C7 witness: the repository test scenario — one sorted segment with
timestamps 1000..4000 split at `nowMs = 2500` — satisfies the statement. -/
theorem splitPastFuture_spec_witness :
    (∀ seg ∈ (splitPastFuture [[⟨10, 50, 1000⟩, ⟨15, 51, 2000⟩, ⟨20, 52, 3000⟩,
          ⟨25, 53, 4000⟩]] 2500).1, seg ≠ [] ∧ ∀ p ∈ seg, p.TS < 2500)
    ∧ (∀ seg ∈ (splitPastFuture [[⟨10, 50, 1000⟩, ⟨15, 51, 2000⟩, ⟨20, 52, 3000⟩,
          ⟨25, 53, 4000⟩]] 2500).2, seg ≠ [] ∧ ∀ p ∈ seg, (2500 : ℤ) ≤ p.TS)
    ∧ (∀ seg ∈ [[⟨10, 50, 1000⟩, ⟨15, 51, 2000⟩, ⟨20, 52, 3000⟩, ⟨25, 53, 4000⟩]],
        ∀ j, firstGEIdx 2500 seg = some j → 0 < j →
        seg.take j ∈ (splitPastFuture [[⟨10, 50, 1000⟩, ⟨15, 51, 2000⟩, ⟨20, 52, 3000⟩,
          ⟨25, 53, 4000⟩]] 2500).1
        ∧ seg.drop j ∈ (splitPastFuture [[⟨10, 50, 1000⟩, ⟨15, 51, 2000⟩, ⟨20, 52, 3000⟩,
          ⟨25, 53, 4000⟩]] 2500).2) :=
  splitPastFuture_spec _ 2500 (by
    intro seg hseg
    simp only [List.mem_singleton] at hseg
    subst hseg
    refine List.Pairwise.cons ?_ (List.Pairwise.cons ?_ (List.Pairwise.cons ?_ ?_)) <;>
      simp [tsLE] <;> omega)

/-! ### Claim C10 — truncation on mid-track propagation failure -/

theorem genAux_collected (f : ℤ → Option TrackPoint) (endT step : ℤ)
    (hstep : 0 < step) :
    ∀ t, (f t ≠ none ∨ endT < t) →
      genAux f endT step t = .ok (collectedPoints f endT step t) := by
  have H : ∀ n : ℕ, ∀ t, (endT + step - t).toNat = n → (f t ≠ none ∨ endT < t) →
      genAux f endT step t = .ok (collectedPoints f endT step t) := by
    intro n
    induction n using Nat.strong_induction_on with
    | _ n ih =>
      intro t hn hcond
      by_cases hle : t ≤ endT
      · have hcond' : f t ≠ none := hcond.resolve_right (by omega)
        rcases hft : f t with _ | p
        · exact absurd hft hcond'
        · rw [genAux, collectedPoints, dif_pos ⟨hstep, hle⟩, dif_pos ⟨hstep, hle⟩, hft]
          rcases hnext : f (t + step) with _ | q
          · by_cases hle2 : t + step ≤ endT
            · have hgn : genAux f endT step (t + step)
                  = .error (.propagationAt (t + step)) := by
                rw [genAux, dif_pos ⟨hstep, hle2⟩, hnext]
              have hcn : collectedPoints f endT step (t + step) = [] := by
                rw [collectedPoints, dif_pos ⟨hstep, hle2⟩, hnext]
              rw [hgn, hcn]
            · have hgn : genAux f endT step (t + step) = .ok [] := by
                rw [genAux, dif_neg (by omega)]
              have hcn : collectedPoints f endT step (t + step) = [] := by
                rw [collectedPoints, dif_neg (by omega)]
              rw [hgn, hcn]
          · have hrec := ih ((endT + step - (t + step)).toNat) (by omega) (t + step) rfl
              (Or.inl (by rw [hnext]; exact Option.noConfusion))
            rw [hrec]
      · rw [genAux, dif_neg (by omega), collectedPoints, dif_neg (by omega)]
  exact fun t hcond => H ((endT + step - t).toNat) t rfl hcond

theorem genAux_error_of_none (f : ℤ → Option TrackPoint) (endT step t : ℤ)
    (hstep : 0 < step) (hle : t ≤ endT) (hnone : f t = none) :
    genAux f endT step t = .error (.propagationAt t) := by
  rw [genAux, dif_pos ⟨hstep, hle⟩, hnone]

theorem collectedPoints_cons (f : ℤ → Option TrackPoint) (endT step t : ℤ)
    (hstep : 0 < step) (hle : t ≤ endT) (p : TrackPoint) (hp : f t = some p) :
    collectedPoints f endT step t = p :: collectedPoints f endT step (t + step) := by
  rw [collectedPoints, dif_pos ⟨hstep, hle⟩, hp]

/-- C10: for a valid interval (`0 < step`, `start < end`), the track
generator reports a propagation error exactly when propagation fails at
the very first sample; when the first sample succeeds, the sampling loop
returns — with no error — exactly the points collected before the first
failure (the silently truncated track), and `GenerateGroundTrack` returns
a ground track built from them. -/
theorem GenerateGroundTrack_truncation (f : ℤ → Option TrackPoint) (noradID : ℤ)
    (start endT now step : ℤ) (hstep : 0 < step) (hlt : start < endT) :
    ((∃ e, GenerateGroundTrack f noradID start endT now step = .error e)
      ↔ f start = none)
    ∧ (f start = none →
        GenerateGroundTrack f noradID start endT now step
          = .error (.propagationAt start))
    ∧ (∀ p, f start = some p →
        genAux f endT step start = .ok (collectedPoints f endT step start)
        ∧ GenerateGroundTrack f noradID start endT now step
            = .ok ⟨(splitPastFuture (splitAtAntimeridian
                      (collectedPoints f endT step start)) now).1,
                   (splitPastFuture (splitAtAntimeridian
                      (collectedPoints f endT step start)) now).2,
                   noradID⟩) := by
  have hns : ¬ step ≤ 0 := by omega
  have hne : ¬ start = endT := by omega
  have hnlt : ¬ endT < start := by omega
  have herr : f start = none →
      GenerateGroundTrack f noradID start endT now step
        = .error (.propagationAt start) := by
    intro hnone
    unfold GenerateGroundTrack
    rw [if_neg hns, if_neg hne]
    simp only [if_neg hnlt]
    rw [genAux_error_of_none f endT step start hstep (by omega) hnone]
  have hok : ∀ p, f start = some p →
      genAux f endT step start = .ok (collectedPoints f endT step start)
      ∧ GenerateGroundTrack f noradID start endT now step
          = .ok ⟨(splitPastFuture (splitAtAntimeridian
                    (collectedPoints f endT step start)) now).1,
                 (splitPastFuture (splitAtAntimeridian
                    (collectedPoints f endT step start)) now).2,
                 noradID⟩ := by
    intro p hp
    have hgen : genAux f endT step start = .ok (collectedPoints f endT step start) :=
      genAux_collected f endT step hstep start (Or.inl (by rw [hp]; exact Option.noConfusion))
    refine ⟨hgen, ?_⟩
    unfold GenerateGroundTrack
    rw [if_neg hns, if_neg hne]
    simp only [if_neg hnlt]
    rw [hgen]
    have hne2 : collectedPoints f endT step start ≠ [] := by
      rw [collectedPoints_cons f endT step start hstep (by omega) p hp]
      exact List.cons_ne_nil _ _
    exact if_neg hne2
  refine ⟨⟨?_, fun h => ⟨_, herr h⟩⟩, herr, hok⟩
  rintro ⟨e, he⟩
  rcases hfs : f start with _ | p
  · rfl
  · obtain ⟨_, hok2⟩ := hok p hfs
    rw [hok2] at he
    exact Except.noConfusion he

/-- C10 witness: a pipeline that succeeds at `t = 0` and fails afterwards
yields a truncated one-point track and no error on `[0, 100]` with step
30, and an error exactly when the first sample fails. -/
theorem GenerateGroundTrack_truncation_witness :
    ((∃ e, GenerateGroundTrack
        (fun t => if t = 0 then some ⟨1, 2, 0⟩ else none) 25544 0 100 50 30 = .error e)
      ↔ (fun t : ℤ => if t = 0 then some (⟨1, 2, 0⟩ : TrackPoint) else none) 0 = none)
    ∧ ((fun t : ℤ => if t = 0 then some (⟨1, 2, 0⟩ : TrackPoint) else none) 0 = none →
        GenerateGroundTrack
          (fun t => if t = 0 then some ⟨1, 2, 0⟩ else none) 25544 0 100 50 30
          = .error (.propagationAt 0))
    ∧ (∀ p, (fun t : ℤ => if t = 0 then some (⟨1, 2, 0⟩ : TrackPoint) else none) 0 = some p →
        genAux (fun t => if t = 0 then some ⟨1, 2, 0⟩ else none) 100 30 0
          = .ok (collectedPoints (fun t => if t = 0 then some ⟨1, 2, 0⟩ else none) 100 30 0)
        ∧ GenerateGroundTrack
            (fun t => if t = 0 then some ⟨1, 2, 0⟩ else none) 25544 0 100 50 30
            = .ok ⟨(splitPastFuture (splitAtAntimeridian
                      (collectedPoints (fun t => if t = 0 then some ⟨1, 2, 0⟩ else none)
                        100 30 0)) 50).1,
                   (splitPastFuture (splitAtAntimeridian
                      (collectedPoints (fun t => if t = 0 then some ⟨1, 2, 0⟩ else none)
                        100 30 0)) 50).2,
                   25544⟩) :=
  GenerateGroundTrack_truncation
    (fun t => if t = 0 then some ⟨1, 2, 0⟩ else none) 25544 0 100 50 30
    (by norm_num) (by norm_num)

/-! ### Claim C6 — antimeridian split -/

theorem interpolateAntimeridian_props (p1 p2 : TrackPoint)
    (h1a : -180 ≤ p1.Lon) (h1b : p1.Lon ≤ 180)
    (h2a : -180 ≤ p2.Lon) (h2b : p2.Lon ≤ 180)
    (hcross : antimeridianThreshold < |p2.Lon - p1.Lon|)
    (hnd : 1 / 10000000000
      < |(if 0 < p1.Lon then p2.Lon + 360 else p2.Lon - 360) - p1.Lon|) :
    ((0 < p1.Lon → (interpolateAntimeridian p1 p2).1.Lon = 180
        ∧ (interpolateAntimeridian p1 p2).2.Lon = -180)
     ∧ (¬ 0 < p1.Lon → (interpolateAntimeridian p1 p2).1.Lon = -180
        ∧ (interpolateAntimeridian p1 p2).2.Lon = 180))
    ∧ (interpolateAntimeridian p1 p2).1.Lat = (interpolateAntimeridian p1 p2).2.Lat
    ∧ (interpolateAntimeridian p1 p2).1.TS = (interpolateAntimeridian p1 p2).2.TS
    ∧ (interpolateAntimeridian p1 p2).1.Lat
        = p1.Lat + (p2.Lat - p1.Lat) *
          (((interpolateAntimeridian p1 p2).1.Lon - p1.Lon)
            / ((if 0 < p1.Lon then p2.Lon + 360 else p2.Lon - 360) - p1.Lon))
    ∧ (interpolateAntimeridian p1 p2).1.TS
        = p1.TS + ratTrunc (((p2.TS - p1.TS : ℤ) : ℚ) *
          (((interpolateAntimeridian p1 p2).1.Lon - p1.Lon)
            / ((if 0 < p1.Lon then p2.Lon + 360 else p2.Lon - 360) - p1.Lon))) := by
  unfold antimeridianThreshold at hcross
  by_cases hp : 0 < p1.Lon
  · have hnd1 : (1 : ℚ) / 10000000000 < |p2.Lon + 360 - p1.Lon| := by
      rwa [if_pos hp] at hnd
    have hd0 : (0 : ℚ) ≤ p2.Lon + 360 - p1.Lon := by linarith
    have hdpos : (0 : ℚ) < p2.Lon + 360 - p1.Lon := by
      rw [abs_of_nonneg hd0] at hnd1
      have : (0 : ℚ) < 1 / 10000000000 := by norm_num
      linarith
    have ht0 : (0 : ℚ) ≤ (180 - p1.Lon) / (p2.Lon + 360 - p1.Lon) :=
      div_nonneg (by linarith) (le_of_lt hdpos)
    have ht1 : (180 - p1.Lon) / (p2.Lon + 360 - p1.Lon) ≤ 1 :=
      (div_le_one hdpos).mpr (by linarith)
    have hmin : min 1 ((180 - p1.Lon) / (p2.Lon + 360 - p1.Lon))
        = (180 - p1.Lon) / (p2.Lon + 360 - p1.Lon) := min_eq_right ht1
    have hmax : max 0 ((180 - p1.Lon) / (p2.Lon + 360 - p1.Lon))
        = (180 - p1.Lon) / (p2.Lon + 360 - p1.Lon) := max_eq_right ht0
    have hval : interpolateAntimeridian p1 p2
        = (⟨180, p1.Lat + (p2.Lat - p1.Lat)
              * ((180 - p1.Lon) / (p2.Lon + 360 - p1.Lon)),
            p1.TS + ratTrunc (((p2.TS - p1.TS : ℤ) : ℚ)
              * ((180 - p1.Lon) / (p2.Lon + 360 - p1.Lon)))⟩,
           ⟨-180, p1.Lat + (p2.Lat - p1.Lat)
              * ((180 - p1.Lon) / (p2.Lon + 360 - p1.Lon)),
            p1.TS + ratTrunc (((p2.TS - p1.TS : ℤ) : ℚ)
              * ((180 - p1.Lon) / (p2.Lon + 360 - p1.Lon)))⟩) := by
      simp only [interpolateAntimeridian, hp, if_true]
      rw [if_pos hnd1, hmin, hmax]
    rw [hval]
    refine ⟨⟨fun _ => ⟨rfl, rfl⟩, fun h => absurd hp h⟩, rfl, rfl, ?_, ?_⟩
    · simp only [hp, if_true]
    · simp only [hp, if_true]
  · have hnd1 : (1 : ℚ) / 10000000000 < |p2.Lon - 360 - p1.Lon| := by
      rwa [if_neg hp] at hnd
    have hd0 : p2.Lon - 360 - p1.Lon ≤ 0 := by linarith
    have hdneg : p2.Lon - 360 - p1.Lon < 0 := by
      rw [abs_of_nonpos hd0] at hnd1
      have : (0 : ℚ) < 1 / 10000000000 := by norm_num
      linarith
    have ht0 : (0 : ℚ) ≤ (-180 - p1.Lon) / (p2.Lon - 360 - p1.Lon) := by
      rw [← neg_div_neg_eq]
      exact div_nonneg (by linarith) (by linarith)
    have ht1 : (-180 - p1.Lon) / (p2.Lon - 360 - p1.Lon) ≤ 1 := by
      rw [← neg_div_neg_eq]
      exact (div_le_one (by linarith)).mpr (by linarith)
    have hmin : min 1 ((-180 - p1.Lon) / (p2.Lon - 360 - p1.Lon))
        = (-180 - p1.Lon) / (p2.Lon - 360 - p1.Lon) := min_eq_right ht1
    have hmax : max 0 ((-180 - p1.Lon) / (p2.Lon - 360 - p1.Lon))
        = (-180 - p1.Lon) / (p2.Lon - 360 - p1.Lon) := max_eq_right ht0
    have hval : interpolateAntimeridian p1 p2
        = (⟨-180, p1.Lat + (p2.Lat - p1.Lat)
              * ((-180 - p1.Lon) / (p2.Lon - 360 - p1.Lon)),
            p1.TS + ratTrunc (((p2.TS - p1.TS : ℤ) : ℚ)
              * ((-180 - p1.Lon) / (p2.Lon - 360 - p1.Lon)))⟩,
           ⟨180, p1.Lat + (p2.Lat - p1.Lat)
              * ((-180 - p1.Lon) / (p2.Lon - 360 - p1.Lon)),
            p1.TS + ratTrunc (((p2.TS - p1.TS : ℤ) : ℚ)
              * ((-180 - p1.Lon) / (p2.Lon - 360 - p1.Lon)))⟩) := by
      simp only [interpolateAntimeridian, hp, if_false]
      rw [if_pos hnd1, hmin, hmax]
    rw [hval]
    refine ⟨⟨fun h => absurd h hp, fun _ => ⟨rfl, rfl⟩⟩, rfl, rfl, ?_, ?_⟩
    · simp only [hp, if_false]
    · simp only [hp, if_false]

theorem splitAux_first_seg :
    ∀ (rest : List TrackPoint) (prev : TrackPoint) (cur : List TrackPoint),
      ∃ tail segs2, splitAux prev cur rest = (cur ++ tail) :: segs2 := by
  intro rest
  induction rest with
  | nil => intro prev cur; exact ⟨[], [], by simp [splitAux]⟩
  | cons p rest ih =>
    intro prev cur
    by_cases hc : antimeridianThreshold < |p.Lon - prev.Lon|
    · refine ⟨[(interpolateAntimeridian prev p).1],
        splitAux p [(interpolateAntimeridian prev p).2, p] rest, ?_⟩
      conv_lhs => unfold splitAux
      rw [if_pos hc]
    · obtain ⟨tail, segs2, h⟩ := ih p (cur ++ [p])
      refine ⟨p :: tail, segs2, ?_⟩
      have hstep : splitAux prev cur (p :: rest) = splitAux p (cur ++ [p]) rest := by
        conv_lhs => unfold splitAux
        rw [if_neg hc]
      rw [hstep, h]
      simp

theorem splitAux_cross :
    ∀ (rest : List TrackPoint) (prev : TrackPoint) (cur : List TrackPoint) (i : ℕ)
      (q1 q2 : TrackPoint),
      (prev :: rest)[i]? = some q1 → (prev :: rest)[i + 1]? = some q2 →
      antimeridianThreshold < |q2.Lon - q1.Lon| →
      ∃ k s1 s2, (splitAux prev cur rest)[k]? = some s1
        ∧ (splitAux prev cur rest)[k + 1]? = some s2
        ∧ s1.getLast? = some (interpolateAntimeridian q1 q2).1
        ∧ s2.head? = some (interpolateAntimeridian q1 q2).2 := by
  intro rest
  induction rest with
  | nil =>
    intro prev cur i q1 q2 h1 h2 _
    exfalso
    have hlen : (1 : ℕ) ≤ i + 1 := by omega
    rw [List.getElem?_eq_none (by simpa using hlen)] at h2
    exact Option.noConfusion h2
  | cons p rest ih =>
    intro prev cur i q1 q2 h1 h2 hcr
    match i with
    | 0 =>
      have hq1 : q1 = prev := by
        rw [List.getElem?_cons_zero] at h1
        exact (Option.some.inj h1).symm
      have hq2 : q2 = p := by
        rw [List.getElem?_cons_succ, List.getElem?_cons_zero] at h2
        exact (Option.some.inj h2).symm
      subst hq1; subst hq2
      have hstep : splitAux q1 cur (q2 :: rest)
          = (cur ++ [(interpolateAntimeridian q1 q2).1])
            :: splitAux q2 [(interpolateAntimeridian q1 q2).2, q2] rest := by
        conv_lhs => unfold splitAux
        rw [if_pos hcr]
      obtain ⟨tail, segs2, hfs⟩ :=
        splitAux_first_seg rest q2 [(interpolateAntimeridian q1 q2).2, q2]
      refine ⟨0, cur ++ [(interpolateAntimeridian q1 q2).1],
        [(interpolateAntimeridian q1 q2).2, q2] ++ tail, ?_, ?_, ?_, ?_⟩
      · rw [hstep]; simp
      · rw [hstep, List.getElem?_cons_succ, hfs]; simp
      · exact List.getLast?_concat _
      · simp
    | j + 1 =>
      have h1' : (p :: rest)[j]? = some q1 := by
        rw [List.getElem?_cons_succ] at h1; exact h1
      have h2' : (p :: rest)[j + 1]? = some q2 := by
        rw [List.getElem?_cons_succ] at h2; exact h2
      by_cases hc : antimeridianThreshold < |p.Lon - prev.Lon|
      · obtain ⟨k, s1, s2, hk1, hk2, hl, hh⟩ :=
          ih p [(interpolateAntimeridian prev p).2, p] j q1 q2 h1' h2' hcr
        have hstep : splitAux prev cur (p :: rest)
            = (cur ++ [(interpolateAntimeridian prev p).1])
              :: splitAux p [(interpolateAntimeridian prev p).2, p] rest := by
          conv_lhs => unfold splitAux
          rw [if_pos hc]
        refine ⟨k + 1, s1, s2, ?_, ?_, hl, hh⟩
        · rw [hstep, List.getElem?_cons_succ]; exact hk1
        · rw [hstep, List.getElem?_cons_succ]; exact hk2
      · obtain ⟨k, s1, s2, hk1, hk2, hl, hh⟩ :=
          ih p (cur ++ [p]) j q1 q2 h1' h2' hcr
        have hstep : splitAux prev cur (p :: rest) = splitAux p (cur ++ [p]) rest := by
          conv_lhs => unfold splitAux
          rw [if_neg hc]
        exact ⟨k, s1, s2, by rw [hstep]; exact hk1, by rw [hstep]; exact hk2, hl, hh⟩

/-- C6: at every consecutive pair of the input whose longitudes jump by
more than 270°, `splitAtAntimeridian` closes one segment with the first
boundary point and opens the next with the second; the outgoing boundary
longitude is +180 when the previous point has positive longitude (signs
flipped otherwise), and both boundary points share one latitude and one
timestamp obtained by linear interpolation against the ±360°-unwrapped
longitude of the far-side point. -/
theorem splitAtAntimeridian_spec (points : List TrackPoint) (i : ℕ)
    (q1 q2 : TrackPoint)
    (hq1 : points[i]? = some q1) (hq2 : points[i + 1]? = some q2)
    (hcross : (270 : ℚ) < |q2.Lon - q1.Lon|)
    (h1a : -180 ≤ q1.Lon) (h1b : q1.Lon ≤ 180)
    (h2a : -180 ≤ q2.Lon) (h2b : q2.Lon ≤ 180)
    (hnd : 1 / 10000000000
      < |(if 0 < q1.Lon then q2.Lon + 360 else q2.Lon - 360) - q1.Lon|) :
    (∃ k s1 s2, (splitAtAntimeridian points)[k]? = some s1
      ∧ (splitAtAntimeridian points)[k + 1]? = some s2
      ∧ s1.getLast? = some (interpolateAntimeridian q1 q2).1
      ∧ s2.head? = some (interpolateAntimeridian q1 q2).2)
    ∧ ((0 < q1.Lon → (interpolateAntimeridian q1 q2).1.Lon = 180
        ∧ (interpolateAntimeridian q1 q2).2.Lon = -180)
      ∧ (¬ 0 < q1.Lon → (interpolateAntimeridian q1 q2).1.Lon = -180
        ∧ (interpolateAntimeridian q1 q2).2.Lon = 180))
    ∧ (interpolateAntimeridian q1 q2).1.Lat = (interpolateAntimeridian q1 q2).2.Lat
    ∧ (interpolateAntimeridian q1 q2).1.TS = (interpolateAntimeridian q1 q2).2.TS
    ∧ (interpolateAntimeridian q1 q2).1.Lat
        = q1.Lat + (q2.Lat - q1.Lat) *
          (((interpolateAntimeridian q1 q2).1.Lon - q1.Lon)
            / ((if 0 < q1.Lon then q2.Lon + 360 else q2.Lon - 360) - q1.Lon))
    ∧ (interpolateAntimeridian q1 q2).1.TS
        = q1.TS + ratTrunc (((q2.TS - q1.TS : ℤ) : ℚ) *
          (((interpolateAntimeridian q1 q2).1.Lon - q1.Lon)
            / ((if 0 < q1.Lon then q2.Lon + 360 else q2.Lon - 360) - q1.Lon))) := by
  have hcross' : antimeridianThreshold < |q2.Lon - q1.Lon| := hcross
  obtain ⟨hsigns, hlat, hts, hlatf, htsf⟩ :=
    interpolateAntimeridian_props q1 q2 h1a h1b h2a h2b hcross' hnd
  refine ⟨?_, hsigns, hlat, hts, hlatf, htsf⟩
  match points with
  | [] => exact absurd hq1 (by simp)
  | p0 :: rest =>
    have hsplit : splitAtAntimeridian (p0 :: rest) = splitAux p0 [p0] rest := rfl
    rw [hsplit]
    exact splitAux_cross rest p0 [p0] i q1 q2 hq1 hq2 hcross'

/-- C6 witness: the repository's single-crossing scenario — longitudes
170, 175, −175, −170 at 1000..4000 ms — satisfies the statement at the
crossing pair (index 1). -/
theorem splitAtAntimeridian_spec_witness :
    (∃ k s1 s2, (splitAtAntimeridian [⟨170, 40, 1000⟩, ⟨175, 42, 2000⟩,
          ⟨-175, 44, 3000⟩, ⟨-170, 46, 4000⟩])[k]? = some s1
      ∧ (splitAtAntimeridian [⟨170, 40, 1000⟩, ⟨175, 42, 2000⟩,
          ⟨-175, 44, 3000⟩, ⟨-170, 46, 4000⟩])[k + 1]? = some s2
      ∧ s1.getLast? = some (interpolateAntimeridian ⟨175, 42, 2000⟩ ⟨-175, 44, 3000⟩).1
      ∧ s2.head? = some (interpolateAntimeridian ⟨175, 42, 2000⟩ ⟨-175, 44, 3000⟩).2)
    ∧ ((0 < (⟨175, 42, 2000⟩ : TrackPoint).Lon →
          (interpolateAntimeridian ⟨175, 42, 2000⟩ ⟨-175, 44, 3000⟩).1.Lon = 180
          ∧ (interpolateAntimeridian ⟨175, 42, 2000⟩ ⟨-175, 44, 3000⟩).2.Lon = -180)
      ∧ (¬ 0 < (⟨175, 42, 2000⟩ : TrackPoint).Lon →
          (interpolateAntimeridian ⟨175, 42, 2000⟩ ⟨-175, 44, 3000⟩).1.Lon = -180
          ∧ (interpolateAntimeridian ⟨175, 42, 2000⟩ ⟨-175, 44, 3000⟩).2.Lon = 180))
    ∧ (interpolateAntimeridian ⟨175, 42, 2000⟩ ⟨-175, 44, 3000⟩).1.Lat
        = (interpolateAntimeridian ⟨175, 42, 2000⟩ ⟨-175, 44, 3000⟩).2.Lat
    ∧ (interpolateAntimeridian ⟨175, 42, 2000⟩ ⟨-175, 44, 3000⟩).1.TS
        = (interpolateAntimeridian ⟨175, 42, 2000⟩ ⟨-175, 44, 3000⟩).2.TS
    ∧ (interpolateAntimeridian ⟨175, 42, 2000⟩ ⟨-175, 44, 3000⟩).1.Lat
        = (⟨175, 42, 2000⟩ : TrackPoint).Lat
          + ((⟨-175, 44, 3000⟩ : TrackPoint).Lat - (⟨175, 42, 2000⟩ : TrackPoint).Lat) *
          (((interpolateAntimeridian ⟨175, 42, 2000⟩ ⟨-175, 44, 3000⟩).1.Lon
              - (⟨175, 42, 2000⟩ : TrackPoint).Lon)
            / ((if 0 < (⟨175, 42, 2000⟩ : TrackPoint).Lon
                  then (⟨-175, 44, 3000⟩ : TrackPoint).Lon + 360
                  else (⟨-175, 44, 3000⟩ : TrackPoint).Lon - 360)
                - (⟨175, 42, 2000⟩ : TrackPoint).Lon))
    ∧ (interpolateAntimeridian ⟨175, 42, 2000⟩ ⟨-175, 44, 3000⟩).1.TS
        = (⟨175, 42, 2000⟩ : TrackPoint).TS
          + ratTrunc ((((⟨-175, 44, 3000⟩ : TrackPoint).TS
              - (⟨175, 42, 2000⟩ : TrackPoint).TS : ℤ) : ℚ) *
          (((interpolateAntimeridian ⟨175, 42, 2000⟩ ⟨-175, 44, 3000⟩).1.Lon
              - (⟨175, 42, 2000⟩ : TrackPoint).Lon)
            / ((if 0 < (⟨175, 42, 2000⟩ : TrackPoint).Lon
                  then (⟨-175, 44, 3000⟩ : TrackPoint).Lon + 360
                  else (⟨-175, 44, 3000⟩ : TrackPoint).Lon - 360)
                - (⟨175, 42, 2000⟩ : TrackPoint).Lon))) :=
  splitAtAntimeridian_spec
    [⟨170, 40, 1000⟩, ⟨175, 42, 2000⟩, ⟨-175, 44, 3000⟩, ⟨-170, 46, 4000⟩] 1
    ⟨175, 42, 2000⟩ ⟨-175, 44, 3000⟩ (by decide) (by decide) (by norm_num)
    (by norm_num) (by norm_num) (by norm_num) (by norm_num) (by norm_num)

/-! ### Claim C8 — AER ranges (`ECEFToAER`) -/

/-- `ECEFPosition` with real coordinates (km) for the transform claims. -/
structure ECEFPositionR where
  X : ℝ
  Y : ℝ
  Z : ℝ
  Time : ℤ

/-- `LLA` with real latitude/longitude (radians) and altitude (km). -/
structure LLAR where
  Lat : ℝ
  Lon : ℝ
  Alt : ℝ

/-- `AER`: azimuth and elevation in radians, range in km. -/
structure AERR where
  Az : ℝ
  El : ℝ
  Range : ℝ

/-- `math.Atan2(y, x)` over the reals (signed zeros do not exist in ℝ;
`atan2 0 0 = 0` as in Go). -/
noncomputable def atan2 (y x : ℝ) : ℝ :=
  if 0 < x then Real.arctan (y / x)
  else if x < 0 then
    (if 0 ≤ y then Real.arctan (y / x) + Real.pi else Real.arctan (y / x) - Real.pi)
  else
    (if 0 < y then Real.pi / 2 else if y < 0 then -(Real.pi / 2) else 0)

/-- `ECEFToAER` (non-nil inputs): ENU components from the observer,
slant range, elevation `asin(U/range)`, azimuth `atan2(E, N)` normalised
to `[0, 2π)` by adding `2π` when negative. -/
noncomputable def ECEFToAER (satECEF obsECEF : ECEFPositionR) (obsLLA : LLAR) : AERR :=
  let dx := satECEF.X - obsECEF.X
  let dy := satECEF.Y - obsECEF.Y
  let dz := satECEF.Z - obsECEF.Z
  let rng := Real.sqrt (dx * dx + dy * dy + dz * dz)
  let sinLat := Real.sin obsLLA.Lat
  let cosLat := Real.cos obsLLA.Lat
  let sinLon := Real.sin obsLLA.Lon
  let cosLon := Real.cos obsLLA.Lon
  let e := -sinLon * dx + cosLon * dy
  let n := -sinLat * cosLon * dx - sinLat * sinLon * dy + cosLat * dz
  let u := cosLat * cosLon * dx + cosLat * sinLon * dy + sinLat * dz
  let el := Real.arcsin (u / rng)
  let az0 := atan2 e n
  let az := if az0 < 0 then az0 + 2 * Real.pi else az0
  ⟨az, el, rng⟩

theorem atan2_mem_Ioc (y x : ℝ) : -Real.pi < atan2 y x ∧ atan2 y x ≤ Real.pi := by
  have hpi := Real.pi_pos
  unfold atan2
  by_cases hx : 0 < x
  · rw [if_pos hx]
    have h1 := Real.arctan_lt_pi_div_two (y / x)
    have h2 := Real.neg_pi_div_two_lt_arctan (y / x)
    constructor <;> linarith
  · rw [if_neg hx]
    by_cases hx2 : x < 0
    · rw [if_pos hx2]
      by_cases hy : 0 ≤ y
      · rw [if_pos hy]
        have hq : y / x ≤ 0 := div_nonpos_iff.mpr (Or.inl ⟨hy, le_of_lt hx2⟩)
        have h1 : Real.arctan (y / x) ≤ 0 := by
          have hm := Real.arctan_strictMono.monotone hq
          rwa [Real.arctan_zero] at hm
        have h2 := Real.neg_pi_div_two_lt_arctan (y / x)
        constructor <;> linarith
      · rw [if_neg hy]
        have hq : 0 < y / x := div_pos_iff.mpr (Or.inr ⟨by linarith, hx2⟩)
        have h1 : 0 < Real.arctan (y / x) := by
          have hm := Real.arctan_strictMono hq
          rwa [Real.arctan_zero] at hm
        have h2 := Real.arctan_lt_pi_div_two (y / x)
        constructor <;> linarith
    · rw [if_neg hx2]
      by_cases hy : 0 < y
      · rw [if_pos hy]; constructor <;> linarith
      · rw [if_neg hy]
        by_cases hy2 : y < 0
        · rw [if_pos hy2]; constructor <;> linarith
        · rw [if_neg hy2]; constructor <;> linarith

theorem az_norm_bounds (e n : ℝ) :
    0 ≤ (if atan2 e n < 0 then atan2 e n + 2 * Real.pi else atan2 e n)
    ∧ (if atan2 e n < 0 then atan2 e n + 2 * Real.pi else atan2 e n) < 2 * Real.pi := by
  have hpi := Real.pi_pos
  obtain ⟨h1, h2⟩ := atan2_mem_Ioc e n
  by_cases hneg : atan2 e n < 0
  · rw [if_pos hneg]
    constructor <;> linarith
  · rw [if_neg hneg]
    constructor <;> linarith

/-- C8 counterexample: with the satellite at the observer's ECEF position
the slant range is 0, not strictly positive as the claim requires for
every input. -/
theorem ECEFToAER_claim_counterexample :
    (ECEFToAER ⟨0, 0, 0, 0⟩ ⟨0, 0, 0, 0⟩ ⟨0, 0, 0⟩).Range = 0
    ∧ ¬ (0 < (ECEFToAER ⟨0, 0, 0, 0⟩ ⟨0, 0, 0, 0⟩ ⟨0, 0, 0⟩).Range) := by
  have h : (ECEFToAER ⟨0, 0, 0, 0⟩ ⟨0, 0, 0, 0⟩ ⟨0, 0, 0⟩).Range = 0 := by
    show Real.sqrt (((0 : ℝ) - 0) * ((0 : ℝ) - 0) + ((0 : ℝ) - 0) * ((0 : ℝ) - 0)
      + ((0 : ℝ) - 0) * ((0 : ℝ) - 0)) = 0
    norm_num
  exact ⟨h, by rw [h]; exact lt_irrefl 0⟩

/-- C8 (amended): whenever the satellite and observer ECEF positions
differ, the AER returned by `ECEFToAER` has azimuth in `[0, 2π)`,
elevation in `[−π/2, π/2]`, and range strictly greater than 0; when they
coincide the range is 0 (and in the floating-point original the elevation
is then NaN). -/
theorem ECEFToAER_ranges (satECEF obsECEF : ECEFPositionR) (obsLLA : LLAR)
    (hne : ¬(satECEF.X - obsECEF.X = 0 ∧ satECEF.Y - obsECEF.Y = 0
        ∧ satECEF.Z - obsECEF.Z = 0)) :
    0 ≤ (ECEFToAER satECEF obsECEF obsLLA).Az
    ∧ (ECEFToAER satECEF obsECEF obsLLA).Az < 2 * Real.pi
    ∧ -(Real.pi / 2) ≤ (ECEFToAER satECEF obsECEF obsLLA).El
    ∧ (ECEFToAER satECEF obsECEF obsLLA).El ≤ Real.pi / 2
    ∧ 0 < (ECEFToAER satECEF obsECEF obsLLA).Range := by
  have hsum : 0 < (satECEF.X - obsECEF.X) * (satECEF.X - obsECEF.X)
      + (satECEF.Y - obsECEF.Y) * (satECEF.Y - obsECEF.Y)
      + (satECEF.Z - obsECEF.Z) * (satECEF.Z - obsECEF.Z) := by
    have q1 := mul_self_nonneg (satECEF.X - obsECEF.X)
    have q2 := mul_self_nonneg (satECEF.Y - obsECEF.Y)
    have q3 := mul_self_nonneg (satECEF.Z - obsECEF.Z)
    rcases not_and_or.mp hne with hx | hyz
    · have := mul_self_pos.mpr hx
      linarith
    · rcases not_and_or.mp hyz with hy | hz
      · have := mul_self_pos.mpr hy
        linarith
      · have := mul_self_pos.mpr hz
        linarith
  refine ⟨(az_norm_bounds _ _).1, (az_norm_bounds _ _).2, ?_, ?_, ?_⟩
  · exact Real.neg_pi_div_two_le_arcsin _
  · exact Real.arcsin_le_pi_div_two _
  · exact Real.sqrt_pos.mpr hsum

/-- C8 witness: a satellite 1 km east of an equatorial observer satisfies
the amended range properties. -/
theorem ECEFToAER_ranges_witness :
    0 ≤ (ECEFToAER ⟨1, 0, 0, 0⟩ ⟨0, 0, 0, 0⟩ ⟨0, 0, 0⟩).Az
    ∧ (ECEFToAER ⟨1, 0, 0, 0⟩ ⟨0, 0, 0, 0⟩ ⟨0, 0, 0⟩).Az < 2 * Real.pi
    ∧ -(Real.pi / 2) ≤ (ECEFToAER ⟨1, 0, 0, 0⟩ ⟨0, 0, 0, 0⟩ ⟨0, 0, 0⟩).El
    ∧ (ECEFToAER ⟨1, 0, 0, 0⟩ ⟨0, 0, 0, 0⟩ ⟨0, 0, 0⟩).El ≤ Real.pi / 2
    ∧ 0 < (ECEFToAER ⟨1, 0, 0, 0⟩ ⟨0, 0, 0, 0⟩ ⟨0, 0, 0⟩).Range :=
  ECEFToAER_ranges ⟨1, 0, 0, 0⟩ ⟨0, 0, 0, 0⟩ ⟨0, 0, 0⟩ (by simp)

/-! ### TLE record and the TLE store (`addInternal`, `addToIndex`) -/

/-- The `TLE` record.  Float fields are exact rationals, the epoch is in
Unix nanoseconds, strings are byte lists. -/
structure TLE where
  Name : GoStr
  NoradID : ℤ
  Classification : GoStr
  IntlDesignator : GoStr
  Epoch : ℤ
  MeanMotionDot : ℚ
  MeanMotionDot2 : ℚ
  Bstar : ℚ
  EphemerisType : ℤ
  ElementSetNo : ℤ
  Inclination : ℚ
  RAAN : ℚ
  Eccentricity : ℚ
  ArgOfPerigee : ℚ
  MeanAnomaly : ℚ
  MeanMotion : ℚ
  RevNumber : ℤ
  Line1 : GoStr
  Line2 : GoStr
  deriving DecidableEq, Repr

/-- `strings.ToLower` on ASCII bytes. -/
def goToLower (s : GoStr) : GoStr :=
  s.map (fun b => if 65 ≤ b ∧ b ≤ 90 then b + 32 else b)

/-- The mutable state of a `TLEStore`: the primary catalog map and the
two secondary indexes (Go maps modelled as total functions with the map's
zero value as default). -/
@[ext]
structure TLEStoreState where
  catalog : ℤ → Option TLE
  byGroup : GoStr → List ℤ
  byName : GoStr → List ℤ

/-- A freshly constructed store (`NewTLEStore`): all maps empty. -/
def emptyStore : TLEStoreState := ⟨fun _ => none, fun _ => [], fun _ => []⟩

/-- `addToIndex`: append `id` under `key` unless it is already present. -/
def addToIndex (index : GoStr → List ℤ) (key : GoStr) (id : ℤ) : GoStr → List ℤ :=
  fun k =>
    if k = key then (if id ∈ index key then index key else index key ++ [id])
    else index k

/-- `addInternal`: upsert into the catalog; index the lowercased group
when non-empty and the lowercased name when non-empty. -/
def addInternal (s : TLEStoreState) (tle : TLE) (group : GoStr) : TLEStoreState :=
  { catalog := fun k => if k = tle.NoradID then some tle else s.catalog k
    byGroup := if group ≠ [] then addToIndex s.byGroup (goToLower group) tle.NoradID
               else s.byGroup
    byName := if tle.Name ≠ [] then addToIndex s.byName (goToLower tle.Name) tle.NoradID
              else s.byName }

/-- `TLEStore.Add` (group-less add). -/
def Add (s : TLEStoreState) (tle : TLE) : TLEStoreState := addInternal s tle []

/-- `TLEStore.AddWithGroup`. -/
def AddWithGroup (s : TLEStoreState) (tle : TLE) (group : GoStr) : TLEStoreState :=
  addInternal s tle group


/-- The byte string "stations". -/
def stationsB : GoStr := [115, 116, 97, 116, 105, 111, 110, 115]

/-- A concrete ISS record for witnesses. -/
def issTLEv : TLE :=
  ⟨issNameB, 25544, [85], [57, 56, 48, 54, 55, 65], 0, 0, 0, 0, 0, 999,
   516 / 10, 2474627 / 10000, 6703 / 10000000, 130536 / 1000, 3250288 / 10000,
   1549815571 / 100000000, 42340, issLine1B, issLine2B⟩

/-! ### Claim C9 — idempotent add, duplicate-free indexes -/

theorem addToIndex_idem (index : GoStr → List ℤ) (key : GoStr) (id : ℤ) :
    addToIndex (addToIndex index key id) key id = addToIndex index key id := by
  funext k
  unfold addToIndex
  by_cases hk : k = key
  · subst hk
    by_cases hmem : id ∈ index k
    · simp [hmem]
    · simp [hmem]
  · simp [hk]

theorem addToIndex_nodup (index : GoStr → List ℤ) (key : GoStr) (id : ℤ)
    (h : ∀ k, (index k).Nodup) : ∀ k, ((addToIndex index key id) k).Nodup := by
  intro k
  unfold addToIndex
  by_cases hk : k = key
  · rw [if_pos hk]
    by_cases hmem : id ∈ index key
    · rw [if_pos hmem]; exact h key
    · rw [if_neg hmem]
      rw [List.nodup_append]
      refine ⟨h key, List.nodup_singleton id, ?_⟩
      intro a ha hb
      rw [List.mem_singleton] at hb
      subst hb
      exact hmem ha
  · rw [if_neg hk]; exact h k

theorem addInternal_idem (s : TLEStoreState) (tle : TLE) (group : GoStr) :
    addInternal (addInternal s tle group) tle group = addInternal s tle group := by
  unfold addInternal
  ext1
  · funext k
    by_cases hk : k = tle.NoradID
    · simp [hk]
    · simp [hk]
  · by_cases hg : group ≠ []
    · simp only [if_pos hg]
      exact addToIndex_idem _ _ _
    · simp only [if_neg hg]
  · by_cases hn : tle.Name ≠ []
    · simp only [if_pos hn]
      exact addToIndex_idem _ _ _
    · simp only [if_neg hn]

/-- C9: adding the same record a second time — through `Add` or
`AddWithGroup` with the same group — leaves the catalog and both indexes
exactly as after the first call, and a store whose secondary indexes have
no duplicate ids keeps that property across any add. -/
theorem add_idempotent_and_nodup (s : TLEStoreState) (tle : TLE) (group : GoStr) :
    AddWithGroup (AddWithGroup s tle group) tle group = AddWithGroup s tle group
    ∧ Add (Add s tle) tle = Add s tle
    ∧ ((∀ k, (s.byGroup k).Nodup) → ∀ k, ((AddWithGroup s tle group).byGroup k).Nodup)
    ∧ ((∀ k, (s.byName k).Nodup) → ∀ k, ((AddWithGroup s tle group).byName k).Nodup)
    ∧ ((∀ k, (s.byGroup k).Nodup) → ∀ k, ((Add s tle).byGroup k).Nodup)
    ∧ ((∀ k, (s.byName k).Nodup) → ∀ k, ((Add s tle).byName k).Nodup) := by
  have hidx : ∀ (index : GoStr → List ℤ) (useKey : Prop) [Decidable useKey]
      (key : GoStr), (∀ k, (index k).Nodup) →
      ∀ k, ((if useKey then addToIndex index key tle.NoradID else index) k).Nodup := by
    intro index useKey hdec key h k
    by_cases hu : useKey
    · rw [if_pos hu]; exact addToIndex_nodup index key tle.NoradID h k
    · rw [if_neg hu]; exact h k
  refine ⟨addInternal_idem s tle group, addInternal_idem s tle [], ?_, ?_, ?_, ?_⟩
  · intro h
    exact hidx s.byGroup (group ≠ []) (goToLower group) h
  · intro h
    exact hidx s.byName (tle.Name ≠ []) (goToLower tle.Name) h
  · intro h
    intro k
    show ((if ([] : GoStr) ≠ [] then addToIndex s.byGroup (goToLower []) tle.NoradID
        else s.byGroup) k).Nodup
    rw [if_neg (by simp)]
    exact h k
  · intro h
    exact hidx s.byName (tle.Name ≠ []) (goToLower tle.Name) h

/-- C9 witness: the empty store with the ISS record and the `stations`
group (bytes of "stations") satisfies the idempotence and no-duplicate
statement. -/
theorem add_idempotent_and_nodup_witness :
    AddWithGroup (AddWithGroup emptyStore issTLEv stationsB) issTLEv stationsB
      = AddWithGroup emptyStore issTLEv stationsB
    ∧ Add (Add emptyStore issTLEv) issTLEv = Add emptyStore issTLEv
    ∧ ((∀ k, (emptyStore.byGroup k).Nodup) →
        ∀ k, ((AddWithGroup emptyStore issTLEv stationsB).byGroup k).Nodup)
    ∧ ((∀ k, (emptyStore.byName k).Nodup) →
        ∀ k, ((AddWithGroup emptyStore issTLEv stationsB).byName k).Nodup)
    ∧ ((∀ k, (emptyStore.byGroup k).Nodup) → ∀ k, ((Add emptyStore issTLEv).byGroup k).Nodup)
    ∧ ((∀ k, (emptyStore.byName k).Nodup) → ∀ k, ((Add emptyStore issTLEv).byName k).Nodup) :=
  add_idempotent_and_nodup emptyStore issTLEv stationsB

/-! ### TLE field parsing (`ParseFloat`, `parseExponent`, `parseEpoch`) -/

/-- Decimal mantissa of `strconv.ParseFloat`: digits with at most one
dot and at least one digit overall, as an exact rational. -/
def goParseMantissa (s : GoStr) : Option ℚ :=
  let intPart := s.takeWhile isDigitB
  let rest := s.dropWhile isDigitB
  match rest with
  | [] => if intPart = [] then none else some (digitsVal intPart)
  | 46 :: fracs =>
    if fracs.all isDigitB ∧ (intPart ≠ [] ∨ fracs ≠ []) then
      some ((digitsVal intPart : ℚ) + (digitsVal fracs : ℚ) / 10 ^ fracs.length)
    else none
  | _ => none

/-- The decimal core of `strconv.ParseFloat` (no hex floats, infinities
or NaN spellings, which never occur in TLE fields), exact-valued. -/
def goParseFloat (s : GoStr) : Option ℚ :=
  match s with
  | [] => none
  | _ =>
    let signAndRest : ℚ × GoStr :=
      match s with
      | 43 :: t => (1, t)
      | 45 :: t => (-1, t)
      | t => (1, t)
    let sign := signAndRest.1
    let s1 := signAndRest.2
    let mantBytes := s1.takeWhile (fun b => isDigitB b || b == 46)
    let rest := s1.dropWhile (fun b => isDigitB b || b == 46)
    match goParseMantissa mantBytes with
    | none => none
    | some m =>
      match rest with
      | [] => some (sign * m)
      | e :: t =>
        if e = 101 ∨ e = 69 then
          let esignAndRest : ℤ × GoStr :=
            match t with
            | 43 :: t2 => (1, t2)
            | 45 :: t2 => (-1, t2)
            | t2 => (1, t2)
          let esign := esignAndRest.1
          let t1 := esignAndRest.2
          if t1 ≠ [] ∧ t1.all isDigitB then
            some (sign * m * 10 ^ (esign * (digitsVal t1 : ℤ)))
          else none
        else none

/-- Index of the last `+` or `-` byte (the exponent scan of
`parseExponent`, which walks from the end). -/
def lastSignIdxAux : GoStr → Option ℕ
  | [] => none
  | c :: t =>
    match lastSignIdxAux t with
    | some i => some (i + 1)
    | none => if c = 43 ∨ c = 45 then some 0 else none

/-- The byte string "00000-0". -/
def zeroExpA : GoStr := [48, 48, 48, 48, 48, 45, 48]

/-- The byte string "00000+0". -/
def zeroExpB : GoStr := [48, 48, 48, 48, 48, 43, 48]

/-- `parseExponent`: TLE scientific notation `[±]NNNNN±E` meaning
`±0.NNNNN × 10^(±E)`; parse errors inside are ignored (value 0), as the
source discards them. -/
def parseExponent (s0 : GoStr) : ℚ :=
  let s := goTrim s0
  if s = [] ∨ s = zeroExpA ∨ s = zeroExpB then 0
  else
    let signAndRest : ℚ × GoStr :=
      match s with
      | 45 :: t => (-1, t)
      | 43 :: t => (1, t)
      | t => (1, t)
    let sign := signAndRest.1
    let s1 := signAndRest.2
    match lastSignIdxAux s1 with
    | none => sign * ((goParseFloat (48 :: 46 :: s1)).getD 0)
    | some expPos =>
      let mantissa := s1.take expPos
      let expStr := s1.drop expPos
      sign * ((goParseFloat (48 :: 46 :: mantissa)).getD 0)
        * 10 ^ ((goAtoi expStr).getD 0)

/-- Leap years in `[1, y-1]` (Gregorian rule; positive years only, as
TLE epochs lie in 1957–2056). -/
def leapsBefore (y : ℤ) : ℤ := (y - 1) / 4 - (y - 1) / 100 + (y - 1) / 400

/-- Days from 1970-01-01 to January 1 of year `y`. -/
def daysFromEpochToYear (y : ℤ) : ℤ :=
  365 * (y - 1970) + (leapsBefore y - leapsBefore 1970)

/-- Nanoseconds per day (`24 * time.Hour`). -/
def nanosPerDay : ℤ := 86400000000000

/-- `parseEpoch`: `YYDDD.DDDDDDDD` → Unix nanoseconds; years 57–99 map
to 1957–1999, 00–56 to 2000–2056; the duration `(day−1)·24h` goes through
Go's truncating float-to-`time.Duration` conversion. -/
def parseEpoch (epochStr : GoStr) : Option ℤ :=
  if epochStr.length < 7 then none
  else
    match goAtoi (epochStr.take 2) with
    | none => none
    | some y =>
      let year := if 57 ≤ y then y + 1900 else y + 2000
      match goParseFloat (epochStr.drop 2) with
      | none => none
      | some day =>
        some (daysFromEpochToYear year * nanosPerDay
          + ratTrunc ((day - 1) * (nanosPerDay : ℚ)))

/-! ### Line parsing (`parseLine1`, `parseLine2`, `parseTLELines`) -/

/-- `parseLine1`: NORAD id, classification, designator, epoch and the
drag fields from Line 1.  `fmt.Errorf`-wrapped `strconv` failures are the
`fieldNumeric` error. -/
def parseLine1 (tle : TLE) (line : GoStr) : Except TLEErr TLE :=
  match parseNoradID (goTrim (goSlice line 2 7)) with
  | .error e => .error e
  | .ok norad =>
    let classification := goSlice line 7 8
    let intlDesignator := goTrim (goSlice line 9 17)
    match parseEpoch (goTrim (goSlice line 18 32)) with
    | none => .error .fieldNumeric
    | some epoch =>
      match goParseFloat (goTrim (goSlice line 33 43)) with
      | none => .error .fieldNumeric
      | some mmDot =>
        let mmDot2 := parseExponent (goTrim (goSlice line 44 52))
        let bstar := parseExponent (goTrim (goSlice line 53 61))
        let ephTypeStr := goTrim (goSlice line 62 63)
        let ephType : ℤ :=
          if ephTypeStr ≠ [] ∧ ephTypeStr ≠ [32] then (goAtoi ephTypeStr).getD 0
          else tle.EphemerisType
        let elemSetStr := goTrim (goSlice line 64 68)
        let elemSetNo : ℤ :=
          if elemSetStr ≠ [] then (goAtoi elemSetStr).getD 0 else tle.ElementSetNo
        .ok { tle with
          NoradID := norad
          Classification := classification
          IntlDesignator := intlDesignator
          Epoch := epoch
          MeanMotionDot := mmDot
          MeanMotionDot2 := mmDot2
          Bstar := bstar
          EphemerisType := ephType
          ElementSetNo := elemSetNo }

/-- `parseLine2`: the orbital elements from Line 2. -/
def parseLine2 (tle : TLE) (line : GoStr) : Except TLEErr TLE :=
  match goParseFloat (goTrim (goSlice line 8 16)) with
  | none => .error .fieldNumeric
  | some incl =>
  match goParseFloat (goTrim (goSlice line 17 25)) with
  | none => .error .fieldNumeric
  | some raan =>
  match goParseFloat (48 :: 46 :: goTrim (goSlice line 26 33)) with
  | none => .error .fieldNumeric
  | some ecc =>
  match goParseFloat (goTrim (goSlice line 34 42)) with
  | none => .error .fieldNumeric
  | some argp =>
  match goParseFloat (goTrim (goSlice line 43 51)) with
  | none => .error .fieldNumeric
  | some ma =>
  match goParseFloat (goTrim (goSlice line 52 63)) with
  | none => .error .fieldNumeric
  | some mm =>
    let revStr := goTrim (goSlice line 63 68)
    let rev : ℤ := if revStr ≠ [] then (goAtoi revStr).getD 0 else tle.RevNumber
    .ok { tle with
      Inclination := incl
      RAAN := raan
      Eccentricity := ecc
      ArgOfPerigee := argp
      MeanAnomaly := ma
      MeanMotion := mm
      RevNumber := rev }

/-- `parseTLELines`: length, line-number and checksum validation, field
parsing of both lines, and the NORAD cross-check. -/
def parseTLELines (name line1 line2 : GoStr) : Except TLEErr TLE :=
  if line1.length < TLELineLength then .error .lineTooShort
  else if line2.length < TLELineLength then .error .lineTooShort
  else if line1.headD 0 ≠ 49 then .error .invalidLineNumber
  else if line2.headD 0 ≠ 50 then .error .invalidLineNumber
  else if ¬ validateChecksum line1 then .error .invalidChecksum
  else if ¬ validateChecksum line2 then .error .invalidChecksum
  else
    match parseLine1 ⟨name, 0, [], [], 0, 0, 0, 0, 0, 0, 0, 0, 0, 0, 0, 0, 0,
        line1, line2⟩ line1 with
    | .error e => .error e
    | .ok tle1 =>
      match parseLine2 tle1 line2 with
      | .error e => .error e
      | .ok tle2 =>
        match parseNoradID (goTrim (goSlice line2 2 7)) with
        | .error e => .error e
        | .ok norad2 =>
          if tle2.NoradID ≠ norad2 then .error .noradMismatch
          else .ok tle2

/-! ### Record assembly (`tryParseTLE`, `ParseTLE`, `ParseTLEBatch`) -/

/-- `tryParseTLE` as a readiness test: 2 accumulated lines starting with
`1` and `2`, or 3 lines whose first starts with neither. -/
def tryParseTLE (lines : List GoStr) : Bool :=
  match lines with
  | [l0, l1] => decide (l0.headD 0 = 49) && decide (l1.headD 0 = 50)
  | [l0, _, _] => decide (l0.headD 0 ≠ 49) && decide (l0.headD 0 ≠ 50)
  | _ => false

/-- `ParseTLE`: dispatch on the first trimmed line — `1` means the
2-line format, `2` is a format error, anything else names a 3-line
record. -/
def ParseTLE (lines : List GoStr) : Except TLEErr TLE :=
  if lines.length < 2 then .error .invalidFormat
  else
    let firstLine := goTrim (lines.headD [])
    if firstLine = [] then .error .invalidFormat
    else if firstLine.headD 0 = 49 then
      parseTLELines [] firstLine (goTrim (lines.getD 1 []))
    else if firstLine.headD 0 = 50 then .error .invalidFormat
    else if lines.length < 3 then .error .invalidFormat
    else parseTLELines firstLine (goTrim (lines.getD 1 [])) (goTrim (lines.getD 2 []))

/-- The accumulation loop of `ParseTLEBatch`. A blank line flushes a
buffer of at least two lines; otherwise the trimmed line is accumulated
and a buffer that `tryParseTLE` accepts is parsed and emitted.  Any
record error aborts the whole batch. -/
def batchAux (acc : List TLE) (currentLines : List GoStr) :
    List GoStr → Except TLEErr (List TLE)
  | [] =>
    if currentLines.length ≥ 2 then
      match ParseTLE currentLines with
      | .error e => .error e
      | .ok t => .ok (acc ++ [t])
    else .ok acc
  | l :: rest =>
    if goTrim l = [] then
      if currentLines.length ≥ 2 then
        match ParseTLE currentLines with
        | .error e => .error e
        | .ok t => batchAux (acc ++ [t]) [] rest
      else batchAux acc currentLines rest
    else
      if tryParseTLE (currentLines ++ [goTrim l]) then
        match ParseTLE (currentLines ++ [goTrim l]) with
        | .error e => .error e
        | .ok t => batchAux (acc ++ [t]) [] rest
      else batchAux acc (currentLines ++ [goTrim l]) rest

/-- `ParseTLEBatch`: split on newlines and run the accumulation loop. -/
def ParseTLEBatch (data : GoStr) : Except TLEErr (List TLE) :=
  batchAux [] [] (goSplitNL data)

/-! ### Claim C2 — a bad record fails the whole batch -/

/-- ISS line 1 with its checksum byte corrupted to `0`. -/
def badLine1B : GoStr := issLine1B.take 68 ++ [48]

/-- A blob holding one valid 3-line ISS record followed by a 2-line
record whose first line has a bad checksum. -/
def mixedBatchB : GoStr :=
  issNameB ++ [10] ++ issLine1B ++ [10] ++ issLine2B ++ [10]
    ++ badLine1B ++ [10] ++ issLine2B

theorem exceptIsOk_exists {ε α : Type} (x : Except ε α) (h : x.isOk = true) :
    ∃ a, x = .ok a := by
  match x with
  | .ok a => exact ⟨a, rfl⟩
  | .error e => exact absurd h (by simp [Except.isOk, Except.toBool])

theorem batchAux_skip (acc : List TLE) (cur : List GoStr) (l : GoStr) (rest : List GoStr)
    (h1 : goTrim l ≠ []) (h2 : tryParseTLE (cur ++ [goTrim l]) = false) :
    batchAux acc cur (l :: rest) = batchAux acc (cur ++ [goTrim l]) rest := by
  conv_lhs => unfold batchAux
  rw [if_neg h1, if_neg (by simp [h2])]

theorem batchAux_flush (acc : List TLE) (cur : List GoStr) (l : GoStr) (rest : List GoStr)
    (h1 : goTrim l ≠ []) (h2 : tryParseTLE (cur ++ [goTrim l]) = true) :
    batchAux acc cur (l :: rest)
      = match ParseTLE (cur ++ [goTrim l]) with
        | .error e => .error e
        | .ok t => batchAux (acc ++ [t]) [] rest := by
  conv_lhs => unfold batchAux
  rw [if_neg h1, if_pos (by simp [h2])]

/-- C2 counterexample: a blob with one valid 3-line record and one
2-line record with a bad checksum makes `ParseTLEBatch` fail as a whole —
the valid record is not installed (the error return carries no records),
refuting "a single bad record never makes the whole batch fail". -/
theorem ParseTLEBatch_claim_counterexample :
    (ParseTLE [issNameB, issLine1B, issLine2B]).isOk = true
    ∧ ParseTLEBatch mixedBatchB = .error .invalidChecksum := by
  constructor
  · decide
  · decide

/-- C2 (amended): one bad record fails the whole batch.  For every blob
that splits into a valid 3-line record followed by a 2-line record that
fails to parse, `ParseTLEBatch` returns that record's error and installs
nothing (the error return carries no records), rather than logging and
skipping it. -/
theorem ParseTLEBatch_bad_record_fails (data n a b b1 b2 : GoStr) (e : TLEErr)
    (hsplit : goSplitNL data = [n, a, b, b1, b2])
    (hn1 : goTrim n ≠ []) (hn49 : (goTrim n).headD 0 ≠ 49)
    (hn50 : (goTrim n).headD 0 ≠ 50)
    (ha1 : goTrim a ≠ []) (hbn : goTrim b ≠ [])
    (hok : (ParseTLE [goTrim n, goTrim a, goTrim b]).isOk = true)
    (hc1 : goTrim b1 ≠ []) (hc149 : (goTrim b1).headD 0 = 49)
    (hc2 : goTrim b2 ≠ []) (hc250 : (goTrim b2).headD 0 = 50)
    (hbad : ParseTLE [goTrim b1, goTrim b2] = .error e) :
    ParseTLEBatch data = .error e := by
  obtain ⟨t, ht⟩ := exceptIsOk_exists _ hok
  unfold ParseTLEBatch
  rw [hsplit]
  rw [batchAux_skip [] [] n (a :: b :: b1 :: b2 :: []) hn1 (by rfl)]
  simp only [List.nil_append]
  rw [batchAux_skip [] [goTrim n] a (b :: b1 :: b2 :: []) ha1
    (by show (decide ((goTrim n).headD 0 = 49) && decide ((goTrim a).headD 0 = 50)) = false
        rw [decide_eq_false hn49, Bool.false_and])]
  simp only [List.cons_append, List.nil_append]
  rw [batchAux_flush [] [goTrim n, goTrim a] b (b1 :: b2 :: []) hbn
    (by show (decide ((goTrim n).headD 0 ≠ 49) && decide ((goTrim n).headD 0 ≠ 50)) = true
        rw [decide_eq_true hn49, decide_eq_true hn50]
        rfl)]
  simp only [List.cons_append, List.nil_append]
  rw [ht]
  show batchAux ([] ++ [t]) [] (b1 :: b2 :: []) = .error e
  rw [batchAux_skip ([] ++ [t]) [] b1 (b2 :: []) hc1 (by rfl)]
  simp only [List.nil_append]
  rw [batchAux_flush [t] [goTrim b1] b2 [] hc2
    (by show (decide ((goTrim b1).headD 0 = 49) && decide ((goTrim b2).headD 0 = 50)) = true
        rw [decide_eq_true hc149, decide_eq_true hc250]
        rfl)]
  simp only [List.cons_append, List.nil_append]
  rw [hbad]

/-- C2 witness: the concrete mixed blob satisfies the amended statement
through the general theorem. -/
theorem ParseTLEBatch_bad_record_fails_witness :
    ParseTLEBatch mixedBatchB = .error .invalidChecksum :=
  ParseTLEBatch_bad_record_fails mixedBatchB issNameB issLine1B issLine2B
    badLine1B issLine2B .invalidChecksum
    (by decide) (by decide) (by decide) (by decide) (by decide) (by decide)
    (by decide) (by decide) (by decide) (by decide) (by decide) (by decide)

end SatScout
